import Mathlib

/-!
Verification of the shusefs request registry, device-state cache and FUSE
write paths.  Each definition is a shallow embedding of the corresponding C
function from `src/request_queue.c`, `src/device_state.c`, `src/fuse_ops.c`
or `src/main.c`; the C source line ranges are quoted in the doc comments.
C `time_t` values obtained from `time(NULL)` are passed explicitly as an
integer `now` argument.  The request payload type is kept generic, as
`request_queue.c` only stores the string it is handed.
-/

namespace Shusefs

/-- MAX_PENDING_REQUESTS from request_queue.h. -/
def MAX_PENDING_REQUESTS : Nat := 64

/-- REQUEST_TIMEOUT_SEC from request_queue.h. -/
def REQUEST_TIMEOUT_SEC : Int := 30

/-- request_state_t from request_queue.h. -/
inductive request_state where
  | queued
  | pending
  | completed
  | timeout
  | error
  deriving DecidableEq, Repr

/-- request_entry_t from request_queue.h (the pthread condition variable is
omitted; `timestamp` is `time_t` as an integer). -/
structure request_entry (α : Type) where
  id : Int
  state : request_state
  request_data : Option α
  response_data : Option α
  timestamp : Int
  deriving DecidableEq, Repr

/-- request_queue_t from request_queue.h (mutex omitted; `entries` is the
64-slot array). -/
structure request_queue (α : Type) where
  entries : List (request_entry α)
  next_id : Int
  deriving DecidableEq, Repr

variable {α : Type}

/-- The value every slot holds after `request_queue_init`
(request_queue.c lines 19-28): id = -1, state = REQ_STATE_PENDING,
no data, timestamp 0 (from the memset). -/
def free_entry : request_entry α :=
  { id := -1, state := .pending, request_data := none, response_data := none,
    timestamp := 0 }

/-- request_queue_init, request_queue.c lines 8-32. -/
def request_queue_init : request_queue α :=
  { entries := List.replicate MAX_PENDING_REQUESTS free_entry, next_id := 1 }

/-- request_queue_peek_next_id, request_queue.c lines 55-65. -/
def request_queue_peek_next_id (q : request_queue α) : Int :=
  q.next_id

/-- The slot-search loop of request_queue_add (request_queue.c lines 74-94):
the first slot with id = -1 is overwritten with the new entry; none if the
queue is full. -/
def add_loop (e : request_entry α) : List (request_entry α) → Option (List (request_entry α))
  | [] => none
  | e0 :: rest =>
    if e0.id = -1 then some (e :: rest)
    else (add_loop e rest).map (e0 :: ·)

/-- request_queue_add, request_queue.c lines 67-99.  On success returns the
updated queue and the assigned id (`next_id`, post-incremented); the new
entry is REQ_STATE_QUEUED with the current time as timestamp. -/
def request_queue_add (q : request_queue α) (d : α) (now : Int) :
    Option (request_queue α × Int) :=
  match add_loop
      { id := q.next_id, state := .queued, request_data := some d,
        response_data := none, timestamp := now } q.entries with
  | none => none
  | some es => some ({ entries := es, next_id := q.next_id + 1 }, q.next_id)

/-- The matching loop of request_queue_handle_response (request_queue.c
lines 109-125): the first slot with the given id AND state
REQ_STATE_PENDING receives the response and becomes REQ_STATE_COMPLETED. -/
def handle_response_loop (req_id : Int) (resp : α) :
    List (request_entry α) → Option (List (request_entry α))
  | [] => none
  | e :: rest =>
    if e.id = req_id ∧ e.state = .pending then
      some ({ e with response_data := some resp, state := .completed } :: rest)
    else (handle_response_loop req_id resp rest).map (e :: ·)

/-- request_queue_handle_response, request_queue.c lines 101-129
(none models the -1 return). -/
def request_queue_handle_response (q : request_queue α) (req_id : Int) (resp : α) :
    Option (request_queue α) :=
  (handle_response_loop req_id resp q.entries).map (fun es => { q with entries := es })

/-- The per-slot body of request_queue_cleanup_timeouts (request_queue.c
lines 150-158). -/
def cleanup_entry (now : Int) (e : request_entry α) : request_entry α :=
  if e.id ≠ -1 ∧ e.state = .pending ∧ now - e.timestamp > REQUEST_TIMEOUT_SEC then
    { e with state := .timeout }
  else e

/-- request_queue_cleanup_timeouts, request_queue.c lines 141-161. -/
def request_queue_cleanup_timeouts (q : request_queue α) (now : Int) : request_queue α :=
  { q with entries := q.entries.map (cleanup_entry now) }

/-- request_queue_get_request_data, request_queue.c lines 163-180: the data
of the first slot whose id matches (none models the NULL return). -/
def request_queue_get_request_data (q : request_queue α) (req_id : Int) : Option α :=
  (q.entries.find? (fun e => e.id == req_id)).bind (·.request_data)

/-- The search loop of request_queue_mark_sent (request_queue.c lines
213-226): at the FIRST slot whose id matches, QUEUED becomes PENDING with a
fresh timestamp, any other state is an error (search does not continue). -/
def mark_sent_loop (req_id now : Int) :
    List (request_entry α) → Option (List (request_entry α))
  | [] => none
  | e :: rest =>
    if e.id = req_id then
      if e.state = .queued then
        some ({ e with state := .pending, timestamp := now } :: rest)
      else none
    else (mark_sent_loop req_id now rest).map (e :: ·)

/-- request_queue_mark_sent, request_queue.c lines 205-230. -/
def request_queue_mark_sent (q : request_queue α) (req_id now : Int) :
    Option (request_queue α) :=
  (mark_sent_loop req_id now q.entries).map (fun es => { q with entries := es })

/-- request_queue_get_next_to_send, request_queue.c lines 182-203: id and
stored data of the first slot that is occupied and still REQ_STATE_QUEUED. -/
def request_queue_get_next_to_send (q : request_queue α) : Option (Int × Option α) :=
  (q.entries.find? (fun e => e.id != -1 && e.state == request_state.queued)).map
    (fun e => (e.id, e.request_data))

/-- One mutating registry call, for reasoning about call sequences. -/
inductive rq_op (α : Type) where
  | add (d : α) (now : Int)
  | mark_sent (req_id : Int) (now : Int)
  | handle_response (req_id : Int) (resp : α)
  | cleanup_timeouts (now : Int)
  deriving DecidableEq, Repr

/-- Effect of one registry call on the queue (failed calls leave it as is,
exactly as the C functions do). -/
def rq_step (q : request_queue α) : rq_op α → request_queue α
  | .add d now =>
    match request_queue_add q d now with
    | none => q
    | some (q', _) => q'
  | .mark_sent r now => (request_queue_mark_sent q r now).getD q
  | .handle_response r d => (request_queue_handle_response q r d).getD q
  | .cleanup_timeouts now => request_queue_cleanup_timeouts q now

/-- Run a sequence of registry calls. -/
def rq_run (q : request_queue α) : List (rq_op α) → request_queue α
  | [] => q
  | op :: ops => rq_run (rq_step q op) ops

/-- Run a sequence of registry calls, collecting the ids returned by the
successful `add` calls, in order. -/
def rq_trace : request_queue α → List (rq_op α) → request_queue α × List Int
  | q, [] => (q, [])
  | q, .add d now :: ops =>
    match request_queue_add q d now with
    | none => rq_trace q ops
    | some (q', i) =>
      let r := rq_trace q' ops
      (r.1, i :: r.2)
  | q, .mark_sent r now :: ops => rq_trace (rq_step q (.mark_sent r now)) ops
  | q, .handle_response r d :: ops => rq_trace (rq_step q (.handle_response r d)) ops
  | q, .cleanup_timeouts now :: ops => rq_trace (rq_step q (.cleanup_timeouts now)) ops

/-- Number of free slots (id = -1). -/
def free_count (es : List (request_entry α)) : Nat :=
  es.countP (fun e => e.id == -1)

/-- A registry holding one queued request with id 1 (payload 5); used by the
concrete witnesses. -/
def rq_example_q1 : request_queue Nat :=
  rq_step request_queue_init (.add 5 0)

/-- A registry after 64 successful adds (payloads 0..63): every slot
occupied. -/
def rq_example_full : request_queue Nat :=
  (rq_trace request_queue_init ((List.range 64).map (fun k => rq_op.add k 0))).1

/-- rq_example_full with request 1 marked sent at time 0 (so it is PENDING),
then cleaned up at time 31 (31 - 0 > 30, so request 1 times out). -/
def rq_example_timed_out : request_queue Nat :=
  request_queue_cleanup_timeouts
    (rq_step rq_example_full (.mark_sent 1 0)) 31

/-- A registry with a single request (payload 5, id 1) that has been sent at
time 0 and is awaiting its response. -/
def rq_example_pending : request_queue Nat :=
  rq_run request_queue_init [.add 5 0, .mark_sent 1 0]

/-- The registry of spec scenario S1 with request 1 additionally marked
sent: Add "a" (id 1), Add "b" (id 2), Mark sent(1). -/
def rq_example_s1 : request_queue String :=
  rq_run request_queue_init [.add "a" 0, .add "b" 0, .mark_sent 1 0]

/-! The JSON-RPC layer and the switch write path. -/

/-- MAX_SWITCHES from device_state.h (as an id bound). -/
def MAX_SWITCHES : Int := 16

/-- MAX_SCRIPTS from device_state.h (as an id bound). -/
def MAX_SCRIPTS : Int := 10

/-- SCRIPT_CHUNK_SIZE from device_state.h. -/
def SCRIPT_CHUNK_SIZE : Nat := 2048

/-- MAX_SCHEDULES from device_state.h. -/
def MAX_SCHEDULES : Nat := 20

/-- Negated-errno codes used by fuse_ops.c. -/
def ENOENT : Int := 2

def EIO_code : Int := 5

def EINVAL : Int := 22

/-- A JSON-RPC request as built by jsonrpc_build_request (device_state.c
lines 168-198).  The wire string is
`{"jsonrpc":"2.0","id":<id>,"src":"shusefs-client","method":"<m>","params":<p>}`
and is fully determined by the three fields kept here; the params field is
absent when the C caller passes NULL or an empty string. -/
structure Rpc where
  method : String
  id : Int
  params : Option String
  deriving DecidableEq, Repr

/-- jsonrpc_build_request, device_state.c lines 168-198 (`params &&
strlen(params) > 0` selects the params-carrying form). -/
def jsonrpc_build_request (method : String) (id : Int) (params : Option String) : Rpc :=
  { method := method, id := id,
    params := match params with
      | some p => if p.length > 0 then some p else none
      | none => none }

/-- The `{"id":%d,"on":%s}` params of Switch.Set (device_state.c lines
1464-1466). -/
def switch_set_params (switch_id : Int) (turn_on : Bool) : String :=
  "\x7b\"id\":" ++ toString switch_id ++ ",\"on\":" ++
    (if turn_on then "true" else "false") ++ "\x7d"

/-- The `{"id":%d}` params used by Switch.GetStatus and Schedule.Delete
(device_state.c lines 1506-1507 and 3494-3495). -/
def id_only_params (the_id : Int) : String :=
  "\x7b\"id\":" ++ toString the_id ++ "\x7d"

/-- device_state_set_switch, device_state.c lines 1456-1495: peeks the next
request id, builds the Switch.Set request and adds it to the queue.
Returns the updated queue, the request added, and the returned id. -/
def device_state_set_switch (q : request_queue Rpc) (switch_id : Int)
    (turn_on : Bool) (now : Int) : Option (request_queue Rpc × Rpc × Int) :=
  if switch_id < 0 ∨ MAX_SWITCHES ≤ switch_id then none
  else
    let req_id := request_queue_peek_next_id q
    let r := jsonrpc_build_request "Switch.Set" req_id
      (some (switch_set_params switch_id turn_on))
    match request_queue_add q r now with
    | none => none
    | some (q', _) => some (q', r, req_id)

/-- device_state_request_switch_status, device_state.c lines 1497-1535. -/
def device_state_request_switch_status (q : request_queue Rpc) (switch_id : Int)
    (now : Int) : Option (request_queue Rpc × Rpc × Int) :=
  if switch_id < 0 ∨ MAX_SWITCHES ≤ switch_id then none
  else
    let req_id := request_queue_peek_next_id q
    let r := jsonrpc_build_request "Switch.GetStatus" req_id
      (some (id_only_params switch_id))
    match request_queue_add q r now with
    | none => none
    | some (q', _) => some (q', r, req_id)

/-- The boolean parse of the /proc/switch/<i>/output payload
(fuse_ops.c lines 1231-1238): `"true"`-leading or first byte '1' means on,
anything else off. -/
def parse_output_payload (buf : List Char) : Bool :=
  if buf.length ≥ 4 ∧ buf.take 4 = ['t', 'r', 'u', 'e'] then true
  else if buf.length ≥ 1 ∧ buf.head? = some '1' then true
  else false

/-- The /proc/switch/<i>/output branch of shuse_write (fuse_ops.c lines
1216-1259): immediate action with no per-open write buffer.  `sw_valid`
is the `sw && sw->valid` lookup outcome.  Returns the FUSE result (written
byte count, or a negated errno), the updated queue, and the requests
enqueued in order (the Switch.GetStatus failure is ignored, as in the C). -/
def shuse_write_switch_output (sw_valid : Bool) (switch_id : Int)
    (buf : List Char) (q : request_queue Rpc) (now : Int) :
    Int × request_queue Rpc × List Rpc :=
  if sw_valid then
    if buf.length > 0 then
      let turn_on := parse_output_payload buf
      match device_state_set_switch q switch_id turn_on now with
      | none => (-EIO_code, q, [])
      | some (q1, r1, _) =>
        match device_state_request_switch_status q1 switch_id now with
        | none => ((buf.length : Int), q1, [r1])
        | some (q2, r2, _) => ((buf.length : Int), q2, [r1, r2])
    else (-EINVAL, q, [])
  else (-ENOENT, q, [])

/-! Switch status cache and the per-field status merge (C3). -/

/-- The runtime status sub-struct of switch_config_t (device_state.h lines
158-185).  The C doubles are modelled as exact rationals: the merge only
compares them with `!=` and overwrites them whole. -/
structure switch_status where
  id : Int
  source : String
  output : Bool
  apower : Rat
  voltage : Rat
  current : Rat
  freq : Rat
  energy_total : Rat
  ret_energy_total : Rat
  temperature_c : Rat
  temperature_f : Rat
  overtemperature : Bool
  last_status_update : Int
  mtime_id : Int
  mtime_source : Int
  mtime_output : Int
  mtime_apower : Int
  mtime_voltage : Int
  mtime_current : Int
  mtime_freq : Int
  mtime_energy : Int
  mtime_ret_energy : Int
  mtime_temperature : Int
  deriving DecidableEq, Repr

/-- The status after device_state_init's memset(0): all fields zero. -/
def switch_status_zero : switch_status :=
  { id := 0, source := "", output := false, apower := 0, voltage := 0,
    current := 0, freq := 0, energy_total := 0, ret_energy_total := 0,
    temperature_c := 0, temperature_f := 0, overtemperature := false,
    last_status_update := 0, mtime_id := 0, mtime_source := 0,
    mtime_output := 0, mtime_apower := 0, mtime_voltage := 0,
    mtime_current := 0, mtime_freq := 0, mtime_energy := 0,
    mtime_ret_energy := 0, mtime_temperature := 0 }

/-- The outcome of the mg_json_get_num / mg_json_get_str / mg_json_get_bool
calls of device_state_update_switch_status (device_state.c lines 1577-1673):
each field is some value when present in the status JSON, none otherwise;
`id` is the (int) cast of the parsed number, exactly as the C compares it. -/
structure switch_status_obs where
  id : Option Int
  source : Option String
  output : Option Bool
  apower : Option Rat
  voltage : Option Rat
  current : Option Rat
  freq : Option Rat
  energy_total : Option Rat
  ret_energy_total : Option Rat
  temperature_c : Option Rat
  temperature_f : Option Rat
  deriving DecidableEq, Repr

/-- An observation with no field present. -/
def switch_status_obs_empty : switch_status_obs :=
  { id := none, source := none, output := none, apower := none,
    voltage := none, current := none, freq := none, energy_total := none,
    ret_energy_total := none, temperature_c := none, temperature_f := none }

/-- The strncpy into the 32-byte source buffer (device_state.c lines
1591-1592): at most 31 characters are kept. -/
def store_source (s : String) : String :=
  String.mk (s.toList.take 31)

/-- The per-field merge body shared verbatim by
device_state_update_switch_status (device_state.c lines 1575-1679) and
device_state_update_switch_status_from_notification (lines 1765-1871).
Each observed field overwrites the cached value and bumps that field's
mtime only when it differs from the cached value (the C source string is
compared in full but stored truncated); temperature_f carries no mtime and
is stored unconditionally, overtemperature is cleared, and
last_status_update is always set to the merge time.  The C performs these
per-field blocks in sequence, but every block reads and writes only its own
field, so the simultaneous record below is the same function. -/
def merge_switch_status (st : switch_status) (obs : switch_status_obs)
    (now : Int) : switch_status :=
  { id := match obs.id with
      | none => st.id
      | some v => if st.id ≠ v then v else st.id
    mtime_id := match obs.id with
      | none => st.mtime_id
      | some v => if st.id ≠ v then now else st.mtime_id
    source := match obs.source with
      | none => st.source
      | some v => if st.source ≠ v then store_source v else st.source
    mtime_source := match obs.source with
      | none => st.mtime_source
      | some v => if st.source ≠ v then now else st.mtime_source
    output := match obs.output with
      | none => st.output
      | some v => if st.output ≠ v then v else st.output
    mtime_output := match obs.output with
      | none => st.mtime_output
      | some v => if st.output ≠ v then now else st.mtime_output
    apower := match obs.apower with
      | none => st.apower
      | some v => if st.apower ≠ v then v else st.apower
    mtime_apower := match obs.apower with
      | none => st.mtime_apower
      | some v => if st.apower ≠ v then now else st.mtime_apower
    voltage := match obs.voltage with
      | none => st.voltage
      | some v => if st.voltage ≠ v then v else st.voltage
    mtime_voltage := match obs.voltage with
      | none => st.mtime_voltage
      | some v => if st.voltage ≠ v then now else st.mtime_voltage
    current := match obs.current with
      | none => st.current
      | some v => if st.current ≠ v then v else st.current
    mtime_current := match obs.current with
      | none => st.mtime_current
      | some v => if st.current ≠ v then now else st.mtime_current
    freq := match obs.freq with
      | none => st.freq
      | some v => if st.freq ≠ v then v else st.freq
    mtime_freq := match obs.freq with
      | none => st.mtime_freq
      | some v => if st.freq ≠ v then now else st.mtime_freq
    energy_total := match obs.energy_total with
      | none => st.energy_total
      | some v => if st.energy_total ≠ v then v else st.energy_total
    mtime_energy := match obs.energy_total with
      | none => st.mtime_energy
      | some v => if st.energy_total ≠ v then now else st.mtime_energy
    ret_energy_total := match obs.ret_energy_total with
      | none => st.ret_energy_total
      | some v => if st.ret_energy_total ≠ v then v else st.ret_energy_total
    mtime_ret_energy := match obs.ret_energy_total with
      | none => st.mtime_ret_energy
      | some v => if st.ret_energy_total ≠ v then now else st.mtime_ret_energy
    temperature_c := match obs.temperature_c with
      | none => st.temperature_c
      | some v => if st.temperature_c ≠ v then v else st.temperature_c
    mtime_temperature := match obs.temperature_c with
      | none => st.mtime_temperature
      | some v => if st.temperature_c ≠ v then now else st.mtime_temperature
    temperature_f := match obs.temperature_f with
      | none => st.temperature_f
      | some v => v
    overtemperature := false
    last_status_update := now }

/-- The ten telemetry fields that carry a per-field mtime. -/
inductive sw_field where
  | id
  | source
  | output
  | apower
  | voltage
  | current
  | freq
  | energy
  | ret_energy
  | temperature
  deriving DecidableEq, Repr

/-- A field value, as a sum over the field types. -/
inductive sw_value where
  | of_int (v : Int)
  | of_str (v : String)
  | of_bool (v : Bool)
  | of_rat (v : Rat)
  deriving DecidableEq, Repr

/-- Cached value of a telemetry field. -/
def sw_get_value (st : switch_status) : sw_field → sw_value
  | .id => .of_int st.id
  | .source => .of_str st.source
  | .output => .of_bool st.output
  | .apower => .of_rat st.apower
  | .voltage => .of_rat st.voltage
  | .current => .of_rat st.current
  | .freq => .of_rat st.freq
  | .energy => .of_rat st.energy_total
  | .ret_energy => .of_rat st.ret_energy_total
  | .temperature => .of_rat st.temperature_c

/-- Per-field modification instant. -/
def sw_get_mtime (st : switch_status) : sw_field → Int
  | .id => st.mtime_id
  | .source => st.mtime_source
  | .output => st.mtime_output
  | .apower => st.mtime_apower
  | .voltage => st.mtime_voltage
  | .current => st.mtime_current
  | .freq => st.mtime_freq
  | .energy => st.mtime_energy
  | .ret_energy => st.mtime_ret_energy
  | .temperature => st.mtime_temperature

/-- Observed value of a telemetry field, when present. -/
def sw_get_obs (obs : switch_status_obs) : sw_field → Option sw_value
  | .id => obs.id.map .of_int
  | .source => obs.source.map .of_str
  | .output => obs.output.map .of_bool
  | .apower => obs.apower.map .of_rat
  | .voltage => obs.voltage.map .of_rat
  | .current => obs.current.map .of_rat
  | .freq => obs.freq.map .of_rat
  | .energy => obs.energy_total.map .of_rat
  | .ret_energy => obs.ret_energy_total.map .of_rat
  | .temperature => obs.temperature_c.map .of_rat

/-- Value as stored by the merge: the observation itself, except that source
strings are cut to the 31 characters the C char[32] buffer holds. -/
def sw_store_value : sw_field → sw_value → sw_value
  | .source, .of_str v => .of_str (store_source v)
  | _, v => v

/-- The rational 10.5 = 21/2 in reduced form (kernel-computable). -/
def rat_ten_point_five : Rat := ⟨21, 2, by norm_num, by norm_num⟩

/-- Scenario S2, first status update: output=true, apower=10.0. -/
def sw_obs_s2_first : switch_status_obs :=
  { switch_status_obs_empty with output := some true, apower := some 10 }

/-- Scenario S2, second status update: output=true, apower=10.5. -/
def sw_obs_s2_second : switch_status_obs :=
  { switch_status_obs_empty with
    output := some true, apower := some rat_ten_point_five }

/-- Scenario S2 cache after the first merge at t=100. -/
def sw_s2_st1 : switch_status :=
  merge_switch_status switch_status_zero sw_obs_s2_first 100

/-- Scenario S2 cache after the second merge at t=101. -/
def sw_s2_st2 : switch_status :=
  merge_switch_status sw_s2_st1 sw_obs_s2_second 101

/-! Configuration caches, the config flush path and the SetConfig response
handler (C4, C9). -/

/-- ssl_ca_t from device_state.h lines 38-42. -/
inductive ssl_ca_t where
  | ca_none
  | ca_user
  | ca_default
  deriving DecidableEq, Repr

/-- The parsed sub-struct of sys_config_t (device_state.h lines 98-105). -/
structure sys_config_parsed where
  device_name : String
  location : String
  eco_mode : Bool
  sntp_enabled : Int
  timezone : Option String
  deriving DecidableEq, Repr

/-- sys_config_t (device_state.h lines 93-109). -/
structure sys_config where
  raw_json : Option String
  json_len : Nat
  parsed : sys_config_parsed
  valid : Bool
  last_update : Int
  deriving DecidableEq, Repr

/-- The parsed sub-struct of mqtt_config_t (device_state.h lines 116-129). -/
structure mqtt_config_parsed where
  enable : Bool
  server : String
  client_id : String
  user : String
  topic_prefix : String
  ssl_ca : ssl_ca_t
  enable_control : Bool
  rpc_ntf : Bool
  status_ntf : Bool
  use_client_cert : Bool
  enable_rpc : Bool
  deriving DecidableEq, Repr

/-- mqtt_config_t (device_state.h lines 112-133). -/
structure mqtt_config where
  raw_json : Option String
  json_len : Nat
  parsed : mqtt_config_parsed
  valid : Bool
  last_update : Int
  deriving DecidableEq, Repr

/-- The two config cache slices the Sys/MQTT SetConfig flows touch. -/
structure config_state where
  sys : sys_config
  mqtt : mqtt_config
  deriving DecidableEq, Repr

/-- Which config document a request concerns. -/
inductive config_kind where
  | sys
  | mqtt
  deriving DecidableEq, Repr

/-- The GetConfig RPC method of each config kind. -/
def config_kind.get_method : config_kind → String
  | .sys => "Sys.GetConfig"
  | .mqtt => "MQTT.GetConfig"

/-- The SetConfig RPC method of each config kind. -/
def config_kind.set_method : config_kind → String
  | .sys => "Sys.SetConfig"
  | .mqtt => "MQTT.SetConfig"

/-- device_state_request_sys_config (device_state.c lines 400-428) and
device_state_request_mqtt_config (lines 741-769): peek the next id, build
the GetConfig request with NULL params and add it to the queue. -/
def device_state_request_config (k : config_kind) (q : request_queue Rpc)
    (now : Int) : Option (request_queue Rpc × Rpc × Int) :=
  let req_id := request_queue_peek_next_id q
  let r := jsonrpc_build_request k.get_method req_id none
  match request_queue_add q r now with
  | none => none
  | some (q', _) => some (q', r, req_id)

/-- The `{"config":<user json>}` params of Sys.SetConfig / MQTT.SetConfig
(device_state.c line 692 and the analogous MQTT line). -/
def set_config_params (user_json : String) : String :=
  "\x7b\"config\":" ++ user_json ++ "\x7d"

/-- device_state_set_sys_config_from_json (device_state.c lines 669-724) and
device_state_set_mqtt_config_from_json: validate the user JSON (the
mongoose `mg_json_get(json, "$", ...) >= 0` outcome is passed in as
`json_valid`), wrap it in `{"config":...}` and queue the SetConfig
request.  The device-state cache is not touched. -/
def device_state_set_config_from_json (k : config_kind) (user_json : String)
    (json_valid : Bool) (q : request_queue Rpc) (now : Int) :
    Option (request_queue Rpc × Rpc × Int) :=
  if ¬json_valid then none
  else
    let params := set_config_params user_json
    let req_id := request_queue_peek_next_id q
    let r := jsonrpc_build_request k.set_method req_id (some params)
    match request_queue_add q r now with
    | none => none
    | some (q', _) => some (q', r, req_id)

/-- The /sys_config.json and /mqtt_config.json branches of shuse_flush
(fuse_ops.c lines 1352-1417): an empty buffer is a no-op; invalid JSON
returns -EINVAL before anything is queued; otherwise, when connected, the
SetConfig request is queued (a queueing failure is -5, errno EIO); the config cache
is never touched.  Returns the FUSE result, the cache, the queue and the
requests enqueued. -/
def shuse_flush_config (k : config_kind) (st : config_state)
    (conn : Bool) (wbuf : String) (json_valid : Bool)
    (q : request_queue Rpc) (now : Int) :
    Int × config_state × request_queue Rpc × List Rpc :=
  if 0 < wbuf.length then
    if ¬json_valid then (-EINVAL, st, q, [])
    else if conn then
      match device_state_set_config_from_json k wbuf json_valid q now with
      | none => (-EIO_code, st, q, [])
      | some (q', r, _) => (0, st, q', [r])
    else (-EIO_code, st, q, [])
  else (0, st, q, [])

/-- The /sys_config.json read branch of shuse_read (fuse_ops.c lines
984-1002) and the identical /mqtt_config.json branch (lines 1004-1022):
an invalid or empty cache is -ENOENT, otherwise the byte range
[offset, offset+size) of the raw document, clipped to json_len. -/
def shuse_read_config (k : config_kind) (st : config_state)
    (offset size : Nat) : Except Int (List Char) :=
  let slice := match k with
    | .sys => (st.sys.raw_json, st.sys.valid, st.sys.json_len)
    | .mqtt => (st.mqtt.raw_json, st.mqtt.valid, st.mqtt.json_len)
  match slice with
  | (some raw, true, len) =>
    if offset ≥ len then .ok []
    else .ok ((raw.toList.drop offset).take (min size (len - offset)))
  | _ => .error (-ENOENT)

/-- The RESPONSE_TYPE_SYS_SETCONFIG / RESPONSE_TYPE_MQTT_SETCONFIG branches
of ws_event_handler (main.c lines 163-195): when the response carries an
error object (`jsonrpc_is_error`, passed in as `resp_is_error`), only a
message is logged and the cache is untouched; on success the corresponding
GetConfig is re-requested (its queueing outcome is ignored). -/
def ws_handle_setconfig_response (k : config_kind) (st : config_state)
    (q : request_queue Rpc) (resp_is_error : Bool) (now : Int) :
    config_state × request_queue Rpc × List Rpc :=
  if resp_is_error then (st, q, [])
  else
    match device_state_request_config k q now with
    | none => (st, q, [])
    | some (q', r, _) => (st, q', [r])

/-- A concrete populated config cache for the witnesses. -/
def config_state_example : config_state :=
  { sys :=
      { raw_json := some "\x7b\"device\":\x7b\"name\":\"s1\"\x7d\x7d",
        json_len := 24,
        parsed :=
          { device_name := "s1", location := "", eco_mode := false,
            sntp_enabled := 1, timezone := none },
        valid := true, last_update := 50 },
    mqtt :=
      { raw_json := none, json_len := 0,
        parsed :=
          { enable := false, server := "", client_id := "", user := "",
            topic_prefix := "", ssl_ca := .ca_none, enable_control := false,
            rpc_ntf := false, status_ntf := false, use_client_cert := false,
            enable_rpc := false },
        valid := false, last_update := 0 } }

/-! Script entries and the chunked code upload (C2). -/

/-- script_entry_t, device_state.h lines 242-260. -/
structure script_entry where
  id : Int
  name : String
  enable : Bool
  code : Option String
  create_time : Int
  modify_time : Int
  valid : Bool
  running : Bool
  mem_used : Int
  mem_peak : Int
  errors : Option String
  last_status_update : Int
  last_upload_req_id : Int
  deriving DecidableEq, Repr

/-- json_escape_string, device_state.c lines 2720-2758: quotes, backslashes
and \n \r \t are escaped, other control characters are dropped. -/
def json_escape_string : List Char → List Char
  | [] => []
  | c :: rest =>
    if c = '"' then '\\' :: '"' :: json_escape_string rest
    else if c = '\\' then '\\' :: '\\' :: json_escape_string rest
    else if c = '\n' then '\\' :: 'n' :: json_escape_string rest
    else if c = '\r' then '\\' :: 'r' :: json_escape_string rest
    else if c = '\t' then '\\' :: 't' :: json_escape_string rest
    else if c.toNat < 32 then json_escape_string rest
    else c :: json_escape_string rest

/-- Fuel-indexed chunking helper (structural recursion so that the kernel
can evaluate it); the fuel is an upper bound on the bytes left, and the
loop consumes at least one byte per iteration. -/
def script_chunks_fuel : Nat → List Char → List (List Char)
  | 0, _ => []
  | fuel + 1, l =>
    if l = [] then []
    else l.take SCRIPT_CHUNK_SIZE :: script_chunks_fuel fuel (l.drop SCRIPT_CHUNK_SIZE)

/-- The chunking performed by the upload loop of
device_state_put_script_code (device_state.c lines 2776-2848): blocks of
SCRIPT_CHUNK_SIZE bytes in order, the last one possibly shorter. -/
def script_chunks (l : List Char) : List (List Char) :=
  script_chunks_fuel l.length l

/-- The Script.PutCode params `{"id":%d,"code":"%s","append":%s}`
(device_state.c lines 2806-2807), the chunk JSON-escaped. -/
def put_code_params (script_id : Int) (chunk : List Char) (append : Bool) : String :=
  "\x7b\"id\":" ++ toString script_id ++ ",\"code\":\"" ++
    String.mk (json_escape_string chunk) ++ "\",\"append\":" ++
    (if append then "true" else "false") ++ "\x7d"

/-- The upload loop of device_state_put_script_code (device_state.c lines
2776-2848): one Script.PutCode per chunk, `chunk_num > 0` as the append
flag, last_req_id carried along (-1 when no chunk was sent); a queueing
failure aborts with -1 (none). -/
def put_code_loop (script_id : Int) (chunks : List (List Char))
    (chunk_num : Nat) (q : request_queue Rpc) (now : Int) :
    Option (request_queue Rpc × List Rpc × Int) :=
  match chunks with
  | [] => some (q, [], -1)
  | c :: rest =>
    let append := decide (chunk_num > 0)
    let req_id := request_queue_peek_next_id q
    let r := jsonrpc_build_request "Script.PutCode" req_id
      (some (put_code_params script_id c append))
    match request_queue_add q r now with
    | none => none
    | some (q', _) =>
      match put_code_loop script_id rest (chunk_num + 1) q' now with
      | none => none
      | some (q'', tr, last) =>
        some (q'', r :: tr, if rest.isEmpty then req_id else last)

/-- The slot update at the end of device_state_put_script_code
(device_state.c lines 2853-2874): the first valid slot with the script id
gets the new code, modify_time, and last_upload_req_id. -/
def update_script_slot (scripts : List script_entry) (script_id : Int)
    (code : String) (now : Int) (last : Int) : List script_entry :=
  match scripts with
  | [] => []
  | s :: rest =>
    if s.id = script_id ∧ s.valid then
      { s with
        code := some code, modify_time := now, last_upload_req_id := last } :: rest
    else s :: update_script_slot rest script_id code now last

/-- device_state_put_script_code, device_state.c lines 2760-2877. -/
def device_state_put_script_code (scripts : List script_entry)
    (q : request_queue Rpc) (script_id : Int) (code : String) (now : Int) :
    Option (List script_entry × request_queue Rpc × List Rpc × Int) :=
  if script_id < 0 ∨ MAX_SCRIPTS ≤ script_id then none
  else
    match put_code_loop script_id (script_chunks code.toList) 0 q now with
    | none => none
    | some (q', tr, last) =>
      some (update_script_slot scripts script_id code now last, q', tr, last)

/-- device_state_get_script, device_state.c lines 2491-2509: the first
valid slot with the given id, after a range check. -/
def find_script (scripts : List script_entry) (script_id : Int) :
    Option script_entry :=
  if script_id < 0 ∨ MAX_SCRIPTS ≤ script_id then none
  else scripts.find? (fun s => s.id == script_id && s.valid)

/-- The chunk-retrieval fields of scripts_state_t (device_state.h lines
268-272). -/
structure scripts_retrieval where
  retrieving_id : Int
  current_offset : Int
  deriving DecidableEq, Repr

/-- The Script.GetCode params `{"id":%d,"offset":%d}` (device_state.c
lines 2548-2550). -/
def get_code_params (script_id offset : Int) : String :=
  "\x7b\"id\":" ++ toString script_id ++ ",\"offset\":" ++
    toString offset ++ "\x7d"

/-- device_state_request_script_code, device_state.c lines 2511-2580: a new
retrieval resets the chunk state to offset 0, then one Script.GetCode with
params `{"id":%d,"offset":%d}` is queued. -/
def device_state_request_script_code (rt : scripts_retrieval)
    (q : request_queue Rpc) (script_id : Int) (now : Int) :
    Option (scripts_retrieval × request_queue Rpc × Rpc × Int) :=
  if script_id < 0 ∨ MAX_SCRIPTS ≤ script_id then none
  else
    let rt' := if rt.retrieving_id ≠ script_id then
        ({ retrieving_id := script_id, current_offset := 0 } : scripts_retrieval)
      else rt
    let params := get_code_params script_id rt'.current_offset
    let req_id := request_queue_peek_next_id q
    let r := jsonrpc_build_request "Script.GetCode" req_id (some params)
    match request_queue_add q r now with
    | none => none
    | some (q', _) => some (rt', q', r, req_id)

/-- The RESPONSE_TYPE_SCRIPT_PUTCODE branch of ws_event_handler (main.c
lines 283-312): on a success response whose id equals the script's
last_upload_req_id, one Script.GetCode for that script id is requested;
on an error response, an unknown script, or a non-final chunk id, nothing
is queued. -/
def ws_handle_putcode_response (scripts : List script_entry)
    (rt : scripts_retrieval) (q : request_queue Rpc) (script_id : Int)
    (msg_id : Int) (resp_is_error : Bool) (now : Int) :
    scripts_retrieval × request_queue Rpc × List Rpc :=
  if resp_is_error then (rt, q, [])
  else
    match find_script scripts script_id with
    | none => (rt, q, [])
    | some s =>
      if s.last_upload_req_id = msg_id then
        match device_state_request_script_code rt q script_id now with
        | none => (rt, q, [])
        | some (rt', q', r, _) => (rt', q', [r])
      else (rt, q, [])

/-- The requests the upload loop queues, in closed form: one
Script.PutCode per chunk with consecutive ids from `first_id` and the
append flag of `chunk_num > 0`. -/
def put_code_trace (script_id : Int) (chunks : List (List Char))
    (chunk_num : Nat) (first_id : Int) : List Rpc :=
  match chunks with
  | [] => []
  | c :: rest =>
    { method := "Script.PutCode", id := first_id,
      params := some (put_code_params script_id c (decide (chunk_num > 0))) } ::
      put_code_trace script_id rest (chunk_num + 1) (first_id + 1)

/-- A concrete valid script slot (id 1) for the witnesses. -/
def script_example : script_entry :=
  { id := 1, name := "s", enable := true, code := none, create_time := 0,
    modify_time := 0, valid := true, running := false, mem_used := 0,
    mem_peak := 0, errors := none, last_status_update := 0,
    last_upload_req_id := -1 }

/-! Schedules and crontab sync (device_state.c lines 3106-3799). -/

/-- schedule_call_t (device_state.h lines 276-279). -/
structure schedule_call where
  method : String
  params_json : Option String
  deriving DecidableEq, Repr

/-- schedule_entry_t (device_state.h lines 282-289); `calls` holds the
first call_count entries of the C array, `valid` the populated flag. -/
structure schedule_entry where
  id : Int
  enable : Bool
  timespec : String
  calls : List schedule_call
  valid : Bool
  deriving DecidableEq, Repr

/-- parsed_schedule_t (device_state.c lines 3516-3522). -/
structure parsed_schedule where
  id : Int
  enable : Bool
  timespec : String
  method : String
  params : Option String
  deriving DecidableEq, Repr

/-- The blank skipping of parse_crontab_line (device_state.c 3530-3534):
spaces and tabs only. -/
def skip_ws : List Char → List Char
  | [] => []
  | c :: rest => if c = ' ' ∨ c = '\t' then skip_ws rest else c :: rest

/-- One field token (device_state.c 3589-3597): characters up to a space,
a tab or a newline, which stays in the rest. -/
def take_token (l : List Char) : List Char × List Char :=
  (l.takeWhile (fun c => c ≠ ' ' ∧ c ≠ '\t' ∧ c ≠ '\n'),
   l.dropWhile (fun c => c ≠ ' ' ∧ c ≠ '\t' ∧ c ≠ '\n'))

/-- Decimal digits to a number, most significant first. -/
def digits_to_nat (ds : List Char) : Nat :=
  ds.foldl (fun a c => a * 10 + (c.toNat - 48)) 0

/-- The strtol(.., 10) call on the "# id:" suffix (device_state.c
3541-3546): leading whitespace, an optional sign, then decimal digits;
none when no digit was consumed (endptr did not advance). -/
def strtol_dec (l : List Char) : Option Int :=
  match l.dropWhile (fun c => c = ' ' ∨ c = '\t' ∨ c = '\n' ∨ c = '\r') with
  | '-' :: rest =>
    let ds := rest.takeWhile Char.isDigit
    if ds = [] then none else some (-(digits_to_nat ds : Int))
  | '+' :: rest =>
    let ds := rest.takeWhile Char.isDigit
    if ds = [] then none else some ((digits_to_nat ds : Int))
  | rest =>
    let ds := rest.takeWhile Char.isDigit
    if ds = [] then none else some ((digits_to_nat ds : Int))

/-- The 6-field timespec loop of parse_crontab_line (device_state.c
3574-3602): fields of 1..20 characters are collected, oversized tokens
are consumed and skipped, and the loop stops after six collected fields
or at the end of the line. The fuel bounds the characters left: on the
newline-free lines the sync loop passes, every round consumes at least
one character, so `line.length + 1` fuel is never exhausted. -/
def timespec_loop_fuel : Nat → List Char → List String → List String × List Char
  | 0, l, acc => (acc, l)
  | fuel + 1, l, acc =>
    if 6 ≤ acc.length then (acc, l)
    else
      match skip_ws l with
      | [] => (acc, [])
      | l' =>
        let t := take_token l'
        if 0 < t.1.length ∧ t.1.length < 21 then
          timespec_loop_fuel fuel t.2 (acc ++ [String.mk t.1])
        else
          timespec_loop_fuel fuel t.2 acc

/-- The three outcomes of parse_crontab_line: a parsed entry (C result 1),
a skipped line carrying the possibly updated current_id (C result 0), or
a parse error (C result -1, current_id untouched). -/
inductive crontab_parse_result where
  | entry (p : parsed_schedule) : crontab_parse_result
  | skip (current : Int) : crontab_parse_result
  | err : crontab_parse_result
  deriving DecidableEq, Repr

/-- parse_crontab_line (device_state.c lines 3528-3659): skip blanks; an
empty line or a newline is skipped; "# id:N" records N as the pending id;
any other "#" comment (except "#!") is skipped; otherwise an optional
"#!" marks the entry disabled, six timespec fields are read (rejoined
with single spaces), then a method of 1..63 characters, then the rest of
the line, trailing blanks trimmed, as the optional params. -/
def parse_crontab_line (line : List Char) (current_id : Int) :
    crontab_parse_result :=
  let l := skip_ws line
  if l = [] ∨ l.headD ' ' = '\n' then .skip current_id
  else if l.take 5 = ['#', ' ', 'i', 'd', ':'] then
    match strtol_dec (l.drop 5) with
    | some v => .skip v
    | none => .skip current_id
  else if l.headD ' ' = '#' ∧ (l.length < 2 ∨ l[1]? ≠ some '!') then
    .skip current_id
  else
    let disabled := l.take 2 = ['#', '!']
    let l2 := if disabled then skip_ws (l.drop 2) else l
    let pr := timespec_loop_fuel (l2.length + 1) l2 []
    if pr.1.length < 6 then .err
    else
      let timespec := String.intercalate " " pr.1
      let m := take_token (skip_ws pr.2)
      if m.1.length = 0 ∨ 64 ≤ m.1.length then .err
      else
        let ps := (skip_ws m.2).takeWhile (fun c => c ≠ '\n')
        let ps' := (ps.reverse.dropWhile (fun c => c = ' ' ∨ c = '\t')).reverse
        .entry { id := current_id, enable := ¬disabled,
                 timespec := timespec, method := String.mk m.1,
                 params := if 0 < ps'.length then some (String.mk ps') else none }

/-- The parse loop of device_state_sync_crontab (device_state.c
3667-3698): lines up to each newline are parsed in turn, threading
current_id (reset to -1 after each parsed entry), until the content ends
or MAX_SCHEDULES entries were parsed. The fuel bounds the content length
(every round consumes at least one character). -/
def parse_crontab_fuel : Nat → List Char → Int → List parsed_schedule →
    List parsed_schedule
  | 0, _, _, acc => acc
  | fuel + 1, content, cur, acc =>
    if content = [] ∨ MAX_SCHEDULES ≤ acc.length then acc
    else
      let line := content.takeWhile (fun c => c ≠ '\n')
      let rest := (content.dropWhile (fun c => c ≠ '\n')).drop 1
      match parse_crontab_line line cur with
      | .entry p => parse_crontab_fuel fuel rest (-1) (acc ++ [p])
      | .skip cur' => parse_crontab_fuel fuel rest cur' acc
      | .err => parse_crontab_fuel fuel rest cur acc

/-- device_state_get_schedule (device_state.c lines 3106-3122): the first
valid slot with the id, after a sign check. -/
def device_state_get_schedule (scheds : List schedule_entry)
    (schedule_id : Int) : Option schedule_entry :=
  if schedule_id < 0 then none
  else scheds.find? (fun s => s.valid && s.id == schedule_id)

/-- The seen-marking loop of device_state_sync_crontab (device_state.c
3717-3723): the first valid slot with the id is marked and the loop
breaks. -/
def mark_seen (scheds : List schedule_entry) (seen : List Bool) (sid : Int) :
    List Bool :=
  match scheds, seen with
  | s :: srest, b :: brest =>
    if s.valid ∧ s.id = sid then true :: brest
    else b :: mark_seen srest brest sid
  | _, seen => seen

/-- The needs_update check of device_state_sync_crontab (device_state.c
3726-3749): enable, timespec, and, when the schedule has calls, the first
call method and params (absent params compare as the empty string); a
schedule without calls always needs an update. -/
def needs_update (existing : schedule_entry) (p : parsed_schedule) : Bool :=
  (existing.enable != p.enable) ||
  (existing.timespec != p.timespec) ||
  (match existing.calls with
   | [] => true
   | c :: _ =>
     (c.method != p.method) ||
     ((c.params_json.getD "") != (p.params.getD "")))

/-- The Schedule.Update params of device_state_update_schedule
(device_state.c lines 3427-3458); from the sync loop timespec and method
are always present. -/
def schedule_update_params (schedule_id : Int) (enable : Bool)
    (timespec method : String) (params : Option String) : String :=
  "\x7b\"id\":" ++ toString schedule_id ++
    ",\"enable\":" ++ (if enable then "true" else "false") ++
    ",\"timespec\":\"" ++ timespec ++ "\"" ++
    (match params with
     | some ps =>
       if 0 < ps.length then
         ",\"calls\":[\x7b\"method\":\"" ++ method ++ "\",\"params\":" ++
           ps ++ "\x7d]"
       else ",\"calls\":[\x7b\"method\":\"" ++ method ++ "\"\x7d]"
     | none => ",\"calls\":[\x7b\"method\":\"" ++ method ++ "\"\x7d]") ++ "\x7d"

/-- The Schedule.Create params of device_state_create_schedule
(device_state.c lines 3377-3388). -/
def schedule_create_params (enable : Bool) (timespec method : String)
    (params : Option String) : String :=
  "\x7b\"enable\":" ++ (if enable then "true" else "false") ++
    ",\"timespec\":\"" ++ timespec ++ "\",\"calls\":[\x7b\"method\":\"" ++
    method ++
    (match params with
     | some ps =>
       if 0 < ps.length then "\",\"params\":" ++ ps ++ "\x7d]\x7d"
       else "\"\x7d]\x7d"
     | none => "\"\x7d]\x7d")

/-- device_state_update_schedule (device_state.c lines 3412-3478): sign
check, peek the next request id, build Schedule.Update, queue it. -/
def device_state_update_schedule (q : request_queue Rpc) (schedule_id : Int)
    (enable : Bool) (timespec method : String) (params : Option String)
    (now : Int) : Option (request_queue Rpc × Rpc × Int) :=
  if schedule_id < 0 then none
  else
    let req_id := request_queue_peek_next_id q
    if req_id < 0 then none
    else
      let r := jsonrpc_build_request "Schedule.Update" req_id
        (some (schedule_update_params schedule_id enable timespec method params))
      match request_queue_add q r now with
      | none => none
      | some (q', _) => some (q', r, req_id)

/-- device_state_create_schedule (device_state.c lines 3355-3410). -/
def device_state_create_schedule (q : request_queue Rpc) (enable : Bool)
    (timespec method : String) (params : Option String) (now : Int) :
    Option (request_queue Rpc × Rpc × Int) :=
  let req_id := request_queue_peek_next_id q
  if req_id < 0 then none
  else
    let r := jsonrpc_build_request "Schedule.Create" req_id
      (some (schedule_create_params enable timespec method params))
    match request_queue_add q r now with
    | none => none
    | some (q', _) => some (q', r, req_id)

/-- device_state_delete_schedule (device_state.c lines 3480-3514): params
`{"id":%d}`. -/
def device_state_delete_schedule (q : request_queue Rpc) (schedule_id : Int)
    (now : Int) : Option (request_queue Rpc × Rpc × Int) :=
  if schedule_id < 0 then none
  else
    let req_id := request_queue_peek_next_id q
    if req_id < 0 then none
    else
      let r := jsonrpc_build_request "Schedule.Delete" req_id
        (some (id_only_params schedule_id))
      match request_queue_add q r now with
      | none => none
      | some (q', _) => some (q', r, req_id)

/-- The create-or-update pass of device_state_sync_crontab
(device_state.c lines 3704-3772): a parsed entry with a nonnegative id is
looked up and, when found, marked seen and updated only if needs_update
holds; a parsed entry bound to an unknown id is skipped with a warning; an
unbound entry is created. A queueing failure only loses the count for
that operation. Returns the queue, the emitted requests in order, their
count, and the seen flags. -/
def sync_process (parsed : List parsed_schedule)
    (cache : List schedule_entry) (seen : List Bool)
    (q : request_queue Rpc) (now : Int) :
    request_queue Rpc × List Rpc × Nat × List Bool :=
  match parsed with
  | [] => (q, [], 0, seen)
  | p :: prest =>
    if 0 ≤ p.id then
      match device_state_get_schedule cache p.id with
      | some existing =>
        let seen' := mark_seen cache seen p.id
        if needs_update existing p then
          match device_state_update_schedule q p.id p.enable p.timespec
              p.method p.params now with
          | some (q', r, _) =>
            let rec_result := sync_process prest cache seen' q' now
            (rec_result.1, r :: rec_result.2.1, rec_result.2.2.1 + 1,
              rec_result.2.2.2)
          | none => sync_process prest cache seen' q now
        else sync_process prest cache seen' q now
      | none => sync_process prest cache seen q now
    else
      match device_state_create_schedule q p.enable p.timespec p.method
          p.params now with
      | some (q', r, _) =>
        let rec_result := sync_process prest cache seen q' now
        (rec_result.1, r :: rec_result.2.1, rec_result.2.2.1 + 1,
          rec_result.2.2.2)
      | none => sync_process prest cache seen q now

/-- The delete pass of device_state_sync_crontab (device_state.c lines
3775-3790): every valid slot left unseen gets one Schedule.Delete. -/
def sync_delete (cache : List schedule_entry) (seen : List Bool)
    (q : request_queue Rpc) (now : Int) :
    request_queue Rpc × List Rpc × Nat :=
  match cache, seen with
  | s :: srest, b :: brest =>
    if s.valid ∧ ¬b then
      match device_state_delete_schedule q s.id now with
      | some (q', r, _) =>
        let rec_result := sync_delete srest brest q' now
        (rec_result.1, r :: rec_result.2.1, rec_result.2.2 + 1)
      | none => sync_delete srest brest q now
    else sync_delete srest brest q now
  | _, _ => (q, [], 0)

/-- The diff part of device_state_sync_crontab (device_state.c lines
3700-3798), on an already-parsed entry list: create-or-update pass over
the parsed entries, then the delete pass over the unseen slots; returns
the queue, all emitted requests in order, and the C return value (the
count of queued operations). -/
def sync_diff (parsed : List parsed_schedule) (cache : List schedule_entry)
    (q : request_queue Rpc) (now : Int) :
    request_queue Rpc × List Rpc × Int :=
  let r1 := sync_process parsed cache (List.replicate cache.length false) q now
  let r2 := sync_delete cache r1.2.2.2 r1.1 now
  (r2.1, r1.2.1 ++ r2.2.1, ((r1.2.2.1 + r2.2.2 : Nat) : Int))

/-- device_state_sync_crontab (device_state.c lines 3661-3799). -/
def device_state_sync_crontab (cache : List schedule_entry)
    (q : request_queue Rpc) (content : List Char) (now : Int) :
    request_queue Rpc × List Rpc × Int :=
  sync_diff (parse_crontab_fuel (content.length + 1) content (-1) [])
    cache q now

/-- One schedule's block in device_state_get_crontab_str (device_state.c
lines 3316-3348): the id comment (with the disabled note), one line per
call (prefixed "#! " when the schedule is disabled, params appended when
present and nonempty), then a blank line. The snprintf size estimate of
the C code is not modelled: it only truncates with params beyond roughly
200 bytes. -/
def crontab_entry_block (s : schedule_entry) : String :=
  (if s.enable then "# id:" ++ toString s.id ++ "\n"
   else "# id:" ++ toString s.id ++ " (disabled)\n") ++
  String.join (s.calls.map (fun c =>
    (if s.enable then "" else "#! ") ++ s.timespec ++ " " ++ c.method ++
      (match c.params_json with
       | some ps => if 0 < ps.length then " " ++ ps else ""
       | none => "") ++ "\n")) ++ "\n"

/-- device_state_get_crontab_str (device_state.c lines 3281-3353): the
three-line header and a blank line, then every valid schedule's block in
slot order. -/
def device_state_get_crontab_str (scheds : List schedule_entry) (rev : Int) :
    String :=
  "# Shelly device schedules (rev: " ++ toString rev ++ ")\n" ++
    "# Format: sec min hour dom month dow method [params]\n" ++
    "# Use \x27#!\x27 prefix for disabled entries\n\n" ++
    String.join ((scheds.filter (fun s => s.valid)).map crontab_entry_block)

/-- The crontab line a single-call schedule round-trips through: the
parsed-entry projection of a cached schedule (first call method and
params, same id, enable and timespec). -/
def parsed_of_schedule (s : schedule_entry) : parsed_schedule :=
  { id := s.id, enable := s.enable, timespec := s.timespec,
    method := (s.calls.headD { method := "", params_json := none }).method,
    params := (s.calls.headD { method := "", params_json := none }).params_json }

/-! Basic registry lemmas. -/

theorem request_queue_add_id {q : request_queue α} {d : α} {now : Int}
    {q' : request_queue α} {i : Int} (h : request_queue_add q d now = some (q', i)) :
    i = q.next_id ∧ q'.next_id = q.next_id + 1 := by
  unfold request_queue_add at h
  cases hl : add_loop
      { id := q.next_id, state := .queued, request_data := some d,
        response_data := none, timestamp := now } q.entries with
  | none => rw [hl] at h; exact absurd h (by simp)
  | some es => rw [hl] at h; simp only [Option.some.injEq, Prod.mk.injEq] at h
               exact ⟨h.2.symm, by rw [← h.1]⟩

theorem mark_sent_next_id {q q' : request_queue α} {r now : Int}
    (h : request_queue_mark_sent q r now = some q') : q'.next_id = q.next_id := by
  unfold request_queue_mark_sent at h
  cases hl : mark_sent_loop r now q.entries with
  | none => rw [hl] at h; exact absurd h (by simp)
  | some es => rw [hl] at h; simp only [Option.map_some', Option.some.injEq] at h
               rw [← h]

theorem handle_response_next_id {q q' : request_queue α} {r : Int} {d : α}
    (h : request_queue_handle_response q r d = some q') : q'.next_id = q.next_id := by
  unfold request_queue_handle_response at h
  cases hl : handle_response_loop r d q.entries with
  | none => rw [hl] at h; exact absurd h (by simp)
  | some es => rw [hl] at h; simp only [Option.map_some', Option.some.injEq] at h
               rw [← h]

theorem rq_step_next_id_mono (q : request_queue α) (op : rq_op α) :
    q.next_id ≤ (rq_step q op).next_id := by
  cases op with
  | add d now =>
    show q.next_id ≤ (match request_queue_add q d now with
      | none => q
      | some (q', _) => q').next_id
    cases h : request_queue_add q d now with
    | none => simp
    | some p =>
      obtain ⟨q', i⟩ := p
      have h2 := (request_queue_add_id h).2
      show q.next_id ≤ q'.next_id
      omega
  | mark_sent r now =>
    show q.next_id ≤ ((request_queue_mark_sent q r now).getD q).next_id
    cases h : request_queue_mark_sent q r now with
    | none => simp
    | some q' => simp [mark_sent_next_id h]
  | handle_response r d =>
    show q.next_id ≤ ((request_queue_handle_response q r d).getD q).next_id
    cases h : request_queue_handle_response q r d with
    | none => simp
    | some q' => simp [handle_response_next_id h]
  | cleanup_timeouts now =>
    show q.next_id ≤ (request_queue_cleanup_timeouts q now).next_id
    simp [request_queue_cleanup_timeouts]

theorem rq_trace_next_id_mono (ops : List (rq_op α)) (q : request_queue α) :
    q.next_id ≤ (rq_trace q ops).1.next_id := by
  induction ops generalizing q with
  | nil => simp [rq_trace]
  | cons op ops ih =>
    cases op with
    | add d now =>
      show q.next_id ≤ (match request_queue_add q d now with
        | none => rq_trace q ops
        | some (q', i) => ((rq_trace q' ops).1, i :: (rq_trace q' ops).2)).1.next_id
      cases h : request_queue_add q d now with
      | none => exact ih q
      | some p =>
        obtain ⟨q', i⟩ := p
        have h2 := (request_queue_add_id h).2
        have := ih q'
        simp only []
        omega
    | mark_sent r now =>
      exact le_trans (rq_step_next_id_mono q (.mark_sent r now)) (ih _)
    | handle_response r d =>
      exact le_trans (rq_step_next_id_mono q (.handle_response r d)) (ih _)
    | cleanup_timeouts now =>
      exact le_trans (rq_step_next_id_mono q (.cleanup_timeouts now)) (ih _)

theorem rq_trace_ids_lower (ops : List (rq_op α)) (q : request_queue α) :
    ∀ i ∈ (rq_trace q ops).2, q.next_id ≤ i := by
  induction ops generalizing q with
  | nil => simp [rq_trace]
  | cons op ops ih =>
    cases op with
    | add d now =>
      show ∀ i ∈ (match request_queue_add q d now with
        | none => rq_trace q ops
        | some (q', i) => ((rq_trace q' ops).1, i :: (rq_trace q' ops).2)).2, q.next_id ≤ i
      cases h : request_queue_add q d now with
      | none => exact ih q
      | some p =>
        obtain ⟨q', j⟩ := p
        obtain ⟨h1, h2⟩ := request_queue_add_id h
        intro i hi
        simp only [List.mem_cons] at hi
        rcases hi with rfl | hi
        · omega
        · have := ih q' i hi; omega
    | mark_sent r now =>
      intro i hi
      have hs := rq_step_next_id_mono q (rq_op.mark_sent r now)
      have := ih (rq_step q (.mark_sent r now)) i hi
      omega
    | handle_response r d =>
      intro i hi
      have hs := rq_step_next_id_mono q (rq_op.handle_response r d)
      have := ih (rq_step q (.handle_response r d)) i hi
      omega
    | cleanup_timeouts now =>
      intro i hi
      have hs := rq_step_next_id_mono q (rq_op.cleanup_timeouts now)
      have := ih (rq_step q (.cleanup_timeouts now)) i hi
      omega

theorem rq_trace_sorted (ops : List (rq_op α)) (q : request_queue α) :
    List.Sorted (· < ·) (rq_trace q ops).2 := by
  induction ops generalizing q with
  | nil => simp [rq_trace]
  | cons op ops ih =>
    cases op with
    | add d now =>
      show List.Sorted (· < ·) (match request_queue_add q d now with
        | none => rq_trace q ops
        | some (q', i) => ((rq_trace q' ops).1, i :: (rq_trace q' ops).2)).2
      cases h : request_queue_add q d now with
      | none => exact ih q
      | some p =>
        obtain ⟨q', j⟩ := p
        obtain ⟨h1, h2⟩ := request_queue_add_id h
        refine List.sorted_cons.mpr ⟨?_, ih q'⟩
        intro b hb
        have := rq_trace_ids_lower ops q' b hb
        omega
    | mark_sent r now => exact ih _
    | handle_response r d => exact ih _
    | cleanup_timeouts now => exact ih _

theorem rq_run_no_add_next_id (ops : List (rq_op α)) (q : request_queue α)
    (h : ∀ d now, rq_op.add d now ∉ ops) : (rq_run q ops).next_id = q.next_id := by
  induction ops generalizing q with
  | nil => simp [rq_run]
  | cons op ops ih =>
    have hstep : (rq_step q op).next_id = q.next_id := by
      cases op with
      | add d now => exact absurd (List.mem_cons_self (rq_op.add d now) ops) (h d now)
      | mark_sent r now =>
        show ((request_queue_mark_sent q r now).getD q).next_id = q.next_id
        cases hm : request_queue_mark_sent q r now with
        | none => simp
        | some q' => simp [mark_sent_next_id hm]
      | handle_response r d =>
        show ((request_queue_handle_response q r d).getD q).next_id = q.next_id
        cases hm : request_queue_handle_response q r d with
        | none => simp
        | some q' => simp [handle_response_next_id hm]
      | cleanup_timeouts now =>
        show (request_queue_cleanup_timeouts q now).next_id = q.next_id
        simp [request_queue_cleanup_timeouts]
    show (rq_run (rq_step q op) ops).next_id = q.next_id
    rw [ih (rq_step q op) (fun d now hm => h d now (List.mem_cons_of_mem _ hm)), hstep]

/-- C7: the ids returned by successive successful Adds are strictly
increasing across any call sequence, and Peek next id returns exactly the id
the next successful Add will assign, without consuming it: peek reads
`next_id` without modifying the queue, a successful Add returns the peeked
value, and every registry call other than Add leaves `next_id` unchanged. -/
theorem C7_add_ids_monotone_peek (q : request_queue α) (ops : List (rq_op α)) :
    request_queue_peek_next_id q = q.next_id ∧
    (∀ d now q' i, request_queue_add q d now = some (q', i) →
      i = request_queue_peek_next_id q ∧
      q'.next_id = request_queue_peek_next_id q + 1) ∧
    List.Sorted (· < ·) (rq_trace q ops).2 ∧
    ((∀ d now, rq_op.add d now ∉ ops) →
      (rq_run q ops).next_id = request_queue_peek_next_id q) := by
  refine ⟨rfl, ?_, rq_trace_sorted ops q, ?_⟩
  · intro d now q' i h
    exact ⟨(request_queue_add_id h).1, (request_queue_add_id h).2⟩
  · intro h
    exact rq_run_no_add_next_id ops q h

/-- Witness for C7 at a concrete call sequence. -/
theorem C7_add_ids_monotone_peek_witness :
    List.Sorted (· < ·)
      (rq_trace (request_queue_init : request_queue Nat)
        [rq_op.add 7 0, rq_op.mark_sent 1 5, rq_op.add 8 6]).2 ∧
    (rq_run (request_queue_init : request_queue Nat)
        [rq_op.mark_sent 1 5, rq_op.cleanup_timeouts 40]).next_id =
      request_queue_peek_next_id (request_queue_init : request_queue Nat) := by
  have h := C7_add_ids_monotone_peek (request_queue_init : request_queue Nat)
    [rq_op.add 7 0, rq_op.mark_sent 1 5, rq_op.add 8 6]
  have h2 := C7_add_ids_monotone_peek (request_queue_init : request_queue Nat)
    [rq_op.mark_sent 1 5, rq_op.cleanup_timeouts 40]
  exact ⟨h.2.2.1, h2.2.2.2 (by intro d now; simp)⟩

/-! Slot-occupancy lemmas for C10. -/

theorem add_loop_occupied {e : request_entry α} {es es' : List (request_entry α)}
    (h : add_loop e es = some es') :
    ∀ (i : Nat) (e0 e0' : request_entry α),
      es[i]? = some e0 → es'[i]? = some e0' → e0' ≠ e0 → e0.id = -1 := by
  induction es generalizing es' with
  | nil => simp [add_loop] at h
  | cons hd tl ih =>
    by_cases hfree : hd.id = -1
    · simp only [add_loop, if_pos hfree, Option.some.injEq] at h
      subst h
      intro i e0 e0' h1 h2 hne
      cases i with
      | zero => simp_all
      | succ n =>
        simp only [List.getElem?_cons_succ] at h1 h2
        rw [h1] at h2
        exact absurd (Option.some.inj h2).symm hne
    · simp only [add_loop, if_neg hfree] at h
      cases hl : add_loop e tl with
      | none => rw [hl] at h; simp at h
      | some tl' =>
        rw [hl] at h
        simp only [Option.map_some', Option.some.injEq] at h
        subst h
        intro i e0 e0' h1 h2 hne
        cases i with
        | zero =>
          simp only [List.getElem?_cons_zero] at h1 h2
          rw [h1] at h2
          exact absurd (Option.some.inj h2).symm hne
        | succ n =>
          simp only [List.getElem?_cons_succ] at h1 h2
          exact ih hl n e0 e0' h1 h2 hne

theorem handle_response_loop_id {r : Int} {d : α} {es es' : List (request_entry α)}
    (h : handle_response_loop r d es = some es') :
    ∀ i : Nat, (es'[i]?).map request_entry.id = (es[i]?).map request_entry.id := by
  induction es generalizing es' with
  | nil => simp [handle_response_loop] at h
  | cons hd tl ih =>
    by_cases hc : hd.id = r ∧ hd.state = .pending
    · simp only [handle_response_loop, if_pos hc, Option.some.injEq] at h
      subst h
      intro i
      cases i with
      | zero => simp
      | succ n => simp
    · simp only [handle_response_loop, if_neg hc] at h
      cases hl : handle_response_loop r d tl with
      | none => rw [hl] at h; simp at h
      | some tl' =>
        rw [hl] at h
        simp only [Option.map_some', Option.some.injEq] at h
        subst h
        intro i
        cases i with
        | zero => simp
        | succ n => simpa using ih hl n

theorem mark_sent_loop_id {r now : Int} {es es' : List (request_entry α)}
    (h : mark_sent_loop r now es = some es') :
    ∀ i : Nat, (es'[i]?).map request_entry.id = (es[i]?).map request_entry.id := by
  induction es generalizing es' with
  | nil => simp [mark_sent_loop] at h
  | cons hd tl ih =>
    by_cases hc : hd.id = r
    · simp only [mark_sent_loop, if_pos hc] at h
      by_cases hs : hd.state = .queued
      · rw [if_pos hs] at h
        replace h := Option.some.inj h
        subst h
        intro i
        cases i with
        | zero => simp
        | succ n => simp
      · rw [if_neg hs] at h; simp at h
    · simp only [mark_sent_loop, if_neg hc] at h
      cases hl : mark_sent_loop r now tl with
      | none => rw [hl] at h; simp at h
      | some tl' =>
        rw [hl] at h
        simp only [Option.map_some', Option.some.injEq] at h
        subst h
        intro i
        cases i with
        | zero => simp
        | succ n => simpa using ih hl n

theorem countP_id_eq {es es' : List (request_entry α)}
    (h : ∀ i : Nat, (es'[i]?).map request_entry.id = (es[i]?).map request_entry.id) :
    free_count es' = free_count es := by
  induction es generalizing es' with
  | nil =>
    cases es' with
    | nil => rfl
    | cons hd' tl' => exact absurd (h 0) (by simp)
  | cons hd tl ih =>
    cases es' with
    | nil => exact absurd (h 0) (by simp)
    | cons hd' tl' =>
      have h0 : hd'.id = hd.id := by
        have := h 0
        simpa using this
      have htl : free_count tl' = free_count tl := ih (fun i => by simpa using h (i + 1))
      simp only [free_count, List.countP_cons] at htl ⊢
      rw [htl, h0]

theorem add_loop_free_count {e : request_entry α} {es es' : List (request_entry α)}
    (h : add_loop e es = some es') (hid : e.id ≠ -1) :
    free_count es' + 1 = free_count es := by
  induction es generalizing es' with
  | nil => simp [add_loop] at h
  | cons hd tl ih =>
    by_cases hfree : hd.id = -1
    · simp only [add_loop, if_pos hfree, Option.some.injEq] at h
      subst h
      simp [free_count, List.countP_cons, hfree, hid]
    · simp only [add_loop, if_neg hfree] at h
      cases hl : add_loop e tl with
      | none => rw [hl] at h; simp at h
      | some tl' =>
        rw [hl] at h
        simp only [Option.map_some', Option.some.injEq] at h
        subst h
        have := ih hl
        simp only [free_count, List.countP_cons] at this ⊢
        omega

theorem add_loop_full {e : request_entry α} {es : List (request_entry α)}
    (h : free_count es = 0) : add_loop e es = none := by
  induction es with
  | nil => rfl
  | cons hd tl ih =>
    simp only [free_count, List.countP_cons] at h
    have hhd : ¬hd.id = -1 := by
      intro hc
      simp [hc] at h
    simp only [add_loop, if_neg hhd]
    have : free_count tl = 0 := by
      simp only [free_count]
      omega
    rw [ih this]
    rfl

theorem cleanup_entry_id (now : Int) (e : request_entry α) :
    (cleanup_entry now e).id = e.id := by
  unfold cleanup_entry
  split <;> rfl

theorem cleanup_entries_id (now : Int) (es : List (request_entry α)) :
    ∀ i : Nat, ((es.map (cleanup_entry now))[i]?).map request_entry.id =
      (es[i]?).map request_entry.id := by
  intro i
  rw [List.getElem?_map]
  cases es[i]? with
  | none => rfl
  | some e => simp [cleanup_entry_id]

theorem handle_response_free_count {q q' : request_queue α} {r : Int} {d : α}
    (h : request_queue_handle_response q r d = some q') :
    free_count q'.entries = free_count q.entries := by
  unfold request_queue_handle_response at h
  cases hl : handle_response_loop r d q.entries with
  | none => rw [hl] at h; simp at h
  | some es =>
    rw [hl] at h
    simp only [Option.map_some', Option.some.injEq] at h
    rw [← h]
    exact countP_id_eq (handle_response_loop_id hl)

theorem mark_sent_free_count {q q' : request_queue α} {r now : Int}
    (h : request_queue_mark_sent q r now = some q') :
    free_count q'.entries = free_count q.entries := by
  unfold request_queue_mark_sent at h
  cases hl : mark_sent_loop r now q.entries with
  | none => rw [hl] at h; simp at h
  | some es =>
    rw [hl] at h
    simp only [Option.map_some', Option.some.injEq] at h
    rw [← h]
    exact countP_id_eq (mark_sent_loop_id hl)

theorem cleanup_free_count (q : request_queue α) (now : Int) :
    free_count (request_queue_cleanup_timeouts q now).entries = free_count q.entries := by
  exact countP_id_eq (cleanup_entries_id now q.entries)

theorem rq_step_free_count_no_add (q : request_queue α) (op : rq_op α)
    (h : ∀ d now, op ≠ rq_op.add d now) :
    free_count (rq_step q op).entries = free_count q.entries := by
  cases op with
  | add d now => exact absurd rfl (h d now)
  | mark_sent r now =>
    show free_count ((request_queue_mark_sent q r now).getD q).entries = _
    cases hm : request_queue_mark_sent q r now with
    | none => simp
    | some q' => simpa using mark_sent_free_count hm
  | handle_response r d =>
    show free_count ((request_queue_handle_response q r d).getD q).entries = _
    cases hm : request_queue_handle_response q r d with
    | none => simp
    | some q' => simpa using handle_response_free_count hm
  | cleanup_timeouts now => exact cleanup_free_count q now

theorem rq_step_next_id_pos (q : request_queue α) (op : rq_op α)
    (h : 1 ≤ q.next_id) : 1 ≤ (rq_step q op).next_id :=
  le_trans h (rq_step_next_id_mono q op)

theorem rq_trace_free_count (ops : List (rq_op α)) (q : request_queue α)
    (hpos : 1 ≤ q.next_id) :
    free_count (rq_trace q ops).1.entries + (rq_trace q ops).2.length =
      free_count q.entries := by
  induction ops generalizing q with
  | nil => simp [rq_trace]
  | cons op ops ih =>
    cases op with
    | add d now =>
      show free_count (match request_queue_add q d now with
          | none => rq_trace q ops
          | some (q', i) => ((rq_trace q' ops).1, i :: (rq_trace q' ops).2)).1.entries +
        (match request_queue_add q d now with
          | none => rq_trace q ops
          | some (q', i) => ((rq_trace q' ops).1, i :: (rq_trace q' ops).2)).2.length =
        free_count q.entries
      cases h : request_queue_add q d now with
      | none => exact ih q hpos
      | some p =>
        obtain ⟨q', i⟩ := p
        obtain ⟨h1, h2⟩ := request_queue_add_id h
        have hq' : free_count q'.entries + 1 = free_count q.entries := by
          unfold request_queue_add at h
          cases hl : add_loop
              { id := q.next_id, state := .queued, request_data := some d,
                response_data := none, timestamp := now } q.entries with
          | none => rw [hl] at h; simp at h
          | some es =>
            rw [hl] at h
            simp only [Option.some.injEq, Prod.mk.injEq] at h
            have := add_loop_free_count hl (by simpa using by omega)
            rw [← h.1]
            exact this
        have := ih q' (by omega)
        simp only [List.length_cons]
        omega
    | mark_sent r now =>
      have h1 := rq_step_free_count_no_add q (.mark_sent r now) (by intro d n h; cases h)
      have := ih (rq_step q (.mark_sent r now)) (rq_step_next_id_pos q _ hpos)
      show free_count (rq_trace (rq_step q (.mark_sent r now)) ops).1.entries +
        (rq_trace (rq_step q (.mark_sent r now)) ops).2.length = free_count q.entries
      omega
    | handle_response r d =>
      have h1 := rq_step_free_count_no_add q (.handle_response r d) (by intro dd n h; cases h)
      have := ih (rq_step q (.handle_response r d)) (rq_step_next_id_pos q _ hpos)
      show free_count (rq_trace (rq_step q (.handle_response r d)) ops).1.entries +
        (rq_trace (rq_step q (.handle_response r d)) ops).2.length = free_count q.entries
      omega
    | cleanup_timeouts now =>
      have h1 := rq_step_free_count_no_add q (.cleanup_timeouts now) (by intro dd n h; cases h)
      have := ih (rq_step q (.cleanup_timeouts now)) (rq_step_next_id_pos q _ hpos)
      show free_count (rq_trace (rq_step q (.cleanup_timeouts now)) ops).1.entries +
        (rq_trace (rq_step q (.cleanup_timeouts now)) ops).2.length = free_count q.entries
      omega

theorem free_count_replicate (n : Nat) :
    free_count (List.replicate n (free_entry : request_entry α)) = n := by
  induction n with
  | zero => rfl
  | succ m ih =>
    rw [List.replicate_succ]
    simp only [free_count, List.countP_cons] at ih ⊢
    rw [ih]
    rfl

/-- C10: no registry operation ever returns an occupied slot to the free
state.  (1) Every call (Add, Mark sent, Handle response, Cleanup timeouts)
preserves the id of every occupied slot; (2) Add only overwrites a slot
whose id is -1; (3) starting from an initialized registry, at most
MAX_PENDING_REQUESTS = 64 Add calls ever succeed over any call sequence,
even if earlier requests completed or timed out; (4) when no slot is free,
every further Add fails (the QueueFull error). -/
theorem C10_slots_never_freed :
    (∀ (q : request_queue α) (op : rq_op α) (i : Nat) (e e' : request_entry α),
      q.entries[i]? = some e → (rq_step q op).entries[i]? = some e' →
      e.id ≠ -1 → e'.id = e.id) ∧
    (∀ (q : request_queue α) (d : α) (now : Int) (q' : request_queue α) (j : Int),
      request_queue_add q d now = some (q', j) →
      ∀ (i : Nat) (e e' : request_entry α), q.entries[i]? = some e →
        q'.entries[i]? = some e' → e' ≠ e → e.id = -1) ∧
    (∀ ops : List (rq_op α),
      (rq_trace (request_queue_init : request_queue α) ops).2.length ≤
        MAX_PENDING_REQUESTS) ∧
    (∀ (q : request_queue α) (d : α) (now : Int),
      free_count q.entries = 0 → request_queue_add q d now = none) := by
  have hadd : ∀ (q : request_queue α) (d : α) (now : Int) (q' : request_queue α) (j : Int),
      request_queue_add q d now = some (q', j) →
      ∀ (i : Nat) (e e' : request_entry α), q.entries[i]? = some e →
        q'.entries[i]? = some e' → e' ≠ e → e.id = -1 := by
    intro q d now q' j h i e e' h1 h2 hne
    unfold request_queue_add at h
    cases hl : add_loop
        { id := q.next_id, state := .queued, request_data := some d,
          response_data := none, timestamp := now } q.entries with
    | none => rw [hl] at h; simp at h
    | some es =>
      rw [hl] at h
      simp only [Option.some.injEq, Prod.mk.injEq] at h
      have hents : q'.entries = es := by rw [← h.1]
      rw [hents] at h2
      exact add_loop_occupied hl i e e' h1 h2 hne
  refine ⟨?_, hadd, ?_, ?_⟩
  · intro q op i e e' h1 h2 h3
    cases op with
    | add d now =>
      have hstep : rq_step q (.add d now) = match request_queue_add q d now with
        | none => q
        | some (q', _) => q' := rfl
      cases hm : request_queue_add q d now with
      | none =>
        rw [hstep, hm] at h2
        rw [h1] at h2
        rw [Option.some.inj h2]
      | some p =>
        obtain ⟨q'', j⟩ := p
        rw [hstep, hm] at h2
        by_cases he : e' = e
        · rw [he]
        · exact absurd (hadd q d now q'' j hm i e e' h1 h2 he) h3
    | mark_sent r now =>
      have hstep : rq_step q (.mark_sent r now) = (request_queue_mark_sent q r now).getD q := rfl
      cases hm : request_queue_mark_sent q r now with
      | none =>
        rw [hstep, hm] at h2
        simp only [Option.getD_none] at h2
        rw [h1] at h2
        rw [Option.some.inj h2]
      | some q'' =>
        rw [hstep, hm] at h2
        simp only [Option.getD_some] at h2
        unfold request_queue_mark_sent at hm
        cases hl : mark_sent_loop r now q.entries with
        | none => rw [hl] at hm; simp at hm
        | some es =>
          rw [hl] at hm
          simp only [Option.map_some', Option.some.injEq] at hm
          have := mark_sent_loop_id hl i
          rw [← hm] at h2
          simp only at h2
          rw [h2, h1] at this
          simpa using this
    | handle_response r d =>
      have hstep : rq_step q (.handle_response r d) =
        (request_queue_handle_response q r d).getD q := rfl
      cases hm : request_queue_handle_response q r d with
      | none =>
        rw [hstep, hm] at h2
        simp only [Option.getD_none] at h2
        rw [h1] at h2
        rw [Option.some.inj h2]
      | some q'' =>
        rw [hstep, hm] at h2
        simp only [Option.getD_some] at h2
        unfold request_queue_handle_response at hm
        cases hl : handle_response_loop r d q.entries with
        | none => rw [hl] at hm; simp at hm
        | some es =>
          rw [hl] at hm
          simp only [Option.map_some', Option.some.injEq] at hm
          have := handle_response_loop_id hl i
          rw [← hm] at h2
          simp only at h2
          rw [h2, h1] at this
          simpa using this
    | cleanup_timeouts now =>
      have hstep : rq_step q (.cleanup_timeouts now) =
        request_queue_cleanup_timeouts q now := rfl
      rw [hstep] at h2
      have := cleanup_entries_id now q.entries i
      unfold request_queue_cleanup_timeouts at h2
      simp only at h2
      rw [h2, h1] at this
      simpa using this
  · intro ops
    have := rq_trace_free_count ops (request_queue_init : request_queue α) (by norm_num [request_queue_init])
    have hinit : free_count (request_queue_init : request_queue α).entries =
        MAX_PENDING_REQUESTS := free_count_replicate MAX_PENDING_REQUESTS
    omega
  · intro q d now h
    unfold request_queue_add
    rw [add_loop_full h]

/-- Witness for C10 at concrete inputs: the one queued entry of
rq_example_q1 keeps id 1 across a Mark sent call, and an Add on the full
registry fails. -/
theorem C10_slots_never_freed_witness :
    ({ id := 1, state := request_state.pending, request_data := some 5,
       response_data := none, timestamp := 3 } : request_entry Nat).id =
      ({ id := 1, state := request_state.queued, request_data := some 5,
         response_data := none, timestamp := 0 } : request_entry Nat).id ∧
    request_queue_add rq_example_full (99 : Nat) 0 = none := by
  have h := C10_slots_never_freed (α := Nat)
  exact ⟨h.1 rq_example_q1 (rq_op.mark_sent 1 3) 0 _ _ (by decide) (by decide) (by decide),
    h.2.2.2 rq_example_full 99 0 (by decide)⟩

/-! Matching-loop lemmas for C5 and C6. -/

theorem handle_response_loop_none {r : Int} {d : α} {es : List (request_entry α)}
    (h : ∀ x ∈ es, ¬(x.id = r ∧ x.state = request_state.pending)) :
    handle_response_loop r d es = none := by
  induction es with
  | nil => rfl
  | cons hd tl ih =>
    have hhd := h hd (List.mem_cons_self hd tl)
    simp only [handle_response_loop, if_neg hhd]
    rw [ih (fun x hx => h x (List.mem_cons_of_mem hd hx))]
    rfl

theorem handle_response_loop_shape {r : Int} {d : α} {es es' : List (request_entry α)}
    (h : handle_response_loop r d es = some es') :
    ∃ (k : Nat) (e0 : request_entry α),
      es[k]? = some e0 ∧ e0.id = r ∧ e0.state = request_state.pending ∧
      es'[k]? = some { e0 with response_data := some d, state := .completed } ∧
      ∀ i : Nat, i ≠ k → es'[i]? = es[i]? := by
  induction es generalizing es' with
  | nil => simp [handle_response_loop] at h
  | cons hd tl ih =>
    by_cases hc : hd.id = r ∧ hd.state = .pending
    · simp only [handle_response_loop, if_pos hc, Option.some.injEq] at h
      subst h
      refine ⟨0, hd, by simp, hc.1, hc.2, by simp, ?_⟩
      intro i hi
      cases i with
      | zero => exact absurd rfl hi
      | succ n => simp
    · simp only [handle_response_loop, if_neg hc] at h
      cases hl : handle_response_loop r d tl with
      | none => rw [hl] at h; simp at h
      | some tl' =>
        rw [hl] at h
        simp only [Option.map_some', Option.some.injEq] at h
        subst h
        obtain ⟨k, e0, h1, h2, h3, h4, h5⟩ := ih hl
        refine ⟨k + 1, e0, by simpa using h1, h2, h3, by simpa using h4, ?_⟩
        intro i hi
        cases i with
        | zero => simp
        | succ n =>
          simp only [List.getElem?_cons_succ]
          exact h5 n (by omega)

theorem handle_response_loop_second {r : Int} {d d' : α} {es es' : List (request_entry α)}
    (h : handle_response_loop r d es = some es')
    (hcount : es.countP (fun x => x.id == r) ≤ 1) :
    handle_response_loop r d' es' = none := by
  induction es generalizing es' with
  | nil => simp [handle_response_loop] at h
  | cons hd tl ih =>
    by_cases hc : hd.id = r ∧ hd.state = .pending
    · simp only [handle_response_loop, if_pos hc, Option.some.injEq] at h
      subst h
      have htl : tl.countP (fun x => x.id == r) = 0 := by
        have h1 : (hd :: tl).countP (fun x => x.id == r) =
            tl.countP (fun x => x.id == r) + 1 := by
          simp [List.countP_cons, hc.1]
        omega
      have htl' : ∀ x ∈ tl, ¬(x.id = r ∧ x.state = request_state.pending) := by
        intro x hx hcon
        have := List.countP_eq_zero.mp htl x hx
        simp [hcon.1] at this
      simp only [handle_response_loop]
      rw [if_neg (by simp)]
      rw [handle_response_loop_none htl']
      rfl
    · simp only [handle_response_loop, if_neg hc] at h
      cases hl : handle_response_loop r d tl with
      | none => rw [hl] at h; simp at h
      | some tl' =>
        rw [hl] at h
        simp only [Option.map_some', Option.some.injEq] at h
        subst h
        by_cases hid : hd.id = r
        · -- hd has the id but a non-pending state; it absorbs the whole count,
          -- so tl holds no entry with id r, contradicting the successful match in tl
          have htl : tl.countP (fun x => x.id == r) = 0 := by
            have h1 : (hd :: tl).countP (fun x => x.id == r) =
                tl.countP (fun x => x.id == r) + 1 := by
              simp [List.countP_cons, hid]
            omega
          have htl' : ∀ x ∈ tl, ¬(x.id = r ∧ x.state = request_state.pending) := by
            intro x hx hcon
            have := List.countP_eq_zero.mp htl x hx
            simp [hcon.1] at this
          rw [handle_response_loop_none htl'] at hl
          exact absurd hl (by simp)
        · have hcount' : tl.countP (fun x => x.id == r) ≤ 1 := by
            have h1 : tl.countP (fun x => x.id == r) ≤
                (hd :: tl).countP (fun x => x.id == r) := by
              simp only [List.countP_cons]
              split <;> omega
            omega
          simp only [handle_response_loop, if_neg hc]
          rw [ih hl hcount']
          rfl

/-- C5 counterexample: in a full registry whose request 1 was sent at time 0,
the Cleanup at time 31 does move request 1 from PENDING to TIMEOUT, but the
slot is NOT freed: it keeps id 1 and a later Add still fails with QueueFull,
so the timed-out slot never becomes available again. -/
theorem C5_cex_slot_not_freed :
    ((rq_step rq_example_full (rq_op.mark_sent 1 0)).entries[0]?).map
        (fun e => (e.id, e.state)) = some (1, request_state.pending) ∧
    (rq_example_timed_out.entries[0]?).map (fun e => (e.id, e.state)) =
      some (1, request_state.timeout) ∧
    request_queue_add rq_example_timed_out (99 : Nat) 40 = none := by
  refine ⟨by decide, by decide, by decide⟩

/-- C5 (amended): an entry PENDING for more than REQUEST_TIMEOUT_SEC = 30
seconds becomes TIMEOUT on the next Cleanup call, after which a late
Handle response for its id fails (completes no entry, provided every
same-id pending entry is overdue); but the entry is NOT freed: its slot
keeps its id, so it is never reusable by a later Add. -/
theorem C5_timeout_transition_amended (q : request_queue α) (now : Int) (i : Nat)
    (e : request_entry α) (resp : α)
    (h : q.entries[i]? = some e) (hid : e.id ≠ -1)
    (hp : e.state = request_state.pending)
    (ht : now - e.timestamp > REQUEST_TIMEOUT_SEC) :
    (request_queue_cleanup_timeouts q now).entries[i]? =
      some { e with state := request_state.timeout } ∧
    ((∀ e' ∈ q.entries, e'.id = e.id → e'.state = request_state.pending →
        now - e'.timestamp > REQUEST_TIMEOUT_SEC) →
      request_queue_handle_response (request_queue_cleanup_timeouts q now) e.id resp
        = none) ∧
    ((request_queue_cleanup_timeouts q now).entries[i]?).map request_entry.id =
      some e.id := by
  have h1 : (request_queue_cleanup_timeouts q now).entries[i]? =
      some { e with state := request_state.timeout } := by
    unfold request_queue_cleanup_timeouts
    simp only [List.getElem?_map, h, Option.map_some']
    unfold cleanup_entry
    rw [if_pos ⟨hid, hp, ht⟩]
  refine ⟨h1, ?_, by rw [h1]; rfl⟩
  intro hall
  unfold request_queue_handle_response
  rw [handle_response_loop_none ?_]
  · rfl
  · intro x hx hcon
    unfold request_queue_cleanup_timeouts at hx
    simp only [List.mem_map] at hx
    obtain ⟨y, hy, hxy⟩ := hx
    unfold cleanup_entry at hxy
    by_cases hcnd : y.id ≠ -1 ∧ y.state = request_state.pending ∧
        now - y.timestamp > REQUEST_TIMEOUT_SEC
    · rw [if_pos hcnd] at hxy
      rw [← hxy] at hcon
      exact absurd hcon.2 (by simp)
    · rw [if_neg hcnd] at hxy
      subst hxy
      have hgt := hall y hy hcon.1 hcon.2
      have hyid : y.id ≠ -1 := by rw [hcon.1]; exact hid
      exact hcnd ⟨hyid, hcon.2, hgt⟩

/-- Witness for the amended C5 at a concrete registry. -/
theorem C5_timeout_transition_amended_witness :
    (request_queue_cleanup_timeouts rq_example_pending 31).entries[0]? =
      some { id := 1, state := request_state.timeout, request_data := some 5,
             response_data := none, timestamp := 0 } ∧
    request_queue_handle_response
      (request_queue_cleanup_timeouts rq_example_pending 31) 1 (7 : Nat) = none := by
  have h := C5_timeout_transition_amended rq_example_pending 31 0
    { id := 1, state := request_state.pending, request_data := some 5,
      response_data := none, timestamp := 0 } 7
    (by decide) (by decide) (by decide) (by decide)
  exact ⟨h.1, h.2.1 (by decide)⟩

/-- C6 counterexample: in the literal scenario S1 (fresh registry,
Add "a" assigning id 1, peek 2, Add "b" assigning 2, with NO Mark sent in
between) the first Handle response(1, "r1") does not succeed: Add leaves the
entry in the QUEUED state and Handle response only matches PENDING entries,
so it returns the error (-1, modelled none). -/
theorem C6_cex_s1_first_response_fails :
    (rq_trace (request_queue_init : request_queue String)
      [rq_op.add "a" 0, rq_op.add "b" 0]).2 = [1, 2] ∧
    request_queue_peek_next_id
      (rq_step (request_queue_init : request_queue String) (rq_op.add "a" 0)) = 2 ∧
    request_queue_handle_response
      (rq_run (request_queue_init : request_queue String)
        [rq_op.add "a" 0, rq_op.add "b" 0]) 1 "r1" = none := by
  refine ⟨by decide, by decide, by decide⟩

/-- C6 (amended): Handle response completes at most one entry per response
id (only the first PENDING slot with that id changes; every other slot is
untouched), and — when the registry holds at most one entry with that id —
a second Handle response call for the same id fails.  Scenario S1 holds
once request 1 is marked sent before its response arrives: Add "a" gives
id 1, Add "b" gives id 2, and after Mark sent(1), Handle response(1, "r1")
succeeds, Get request data(1) is "a", and the repeated
Handle response(1, "r1x") errors. -/
theorem C6_at_most_one_completion_amended (q : request_queue α) (r : Int)
    (d d' : α) (q' : request_queue α)
    (h : request_queue_handle_response q r d = some q') :
    (∃ (k : Nat) (e0 : request_entry α),
      q.entries[k]? = some e0 ∧ e0.id = r ∧ e0.state = request_state.pending ∧
      q'.entries[k]? =
        some { e0 with response_data := some d, state := request_state.completed } ∧
      ∀ i : Nat, i ≠ k → q'.entries[i]? = q.entries[i]?) ∧
    (q.entries.countP (fun x => x.id == r) ≤ 1 →
      request_queue_handle_response q' r d' = none) ∧
    ((rq_trace (request_queue_init : request_queue String)
        [rq_op.add "a" 0, rq_op.add "b" 0]).2 = [1, 2] ∧
      Option.map (fun q4 => (request_queue_get_request_data q4 1,
          request_queue_handle_response q4 1 "r1x"))
        (request_queue_handle_response rq_example_s1 1 "r1") =
        some (some "a", none)) := by
  unfold request_queue_handle_response at h
  cases hl : handle_response_loop r d q.entries with
  | none => rw [hl] at h; simp at h
  | some es =>
    rw [hl] at h
    simp only [Option.map_some', Option.some.injEq] at h
    have hents : q'.entries = es := by rw [← h]
    refine ⟨?_, ?_, by decide, by decide⟩
    · obtain ⟨k, e0, h1, h2, h3, h4, h5⟩ := handle_response_loop_shape hl
      exact ⟨k, e0, h1, h2, h3, by rw [hents]; exact h4,
        fun i hi => by rw [hents]; exact h5 i hi⟩
    · intro hcount
      unfold request_queue_handle_response
      rw [hents, handle_response_loop_second hl hcount]
      rfl

/-- Witness for the amended C6 on scenario S1 with Mark sent inserted. -/
theorem C6_at_most_one_completion_amended_witness :
    request_queue_handle_response
      ((request_queue_handle_response rq_example_s1 1 "r1").getD
        (request_queue_init : request_queue String)) 1 "r1x" = none := by
  have hsome : request_queue_handle_response rq_example_s1 1 "r1" =
      some ((request_queue_handle_response rq_example_s1 1 "r1").getD
        (request_queue_init : request_queue String)) := by decide
  exact (C6_at_most_one_completion_amended rq_example_s1 1 "r1" "r1x" _ hsome).2.1
    (by decide)

/-! Lemmas for the switch write path (C8). -/

theorem add_loop_succeeds (e : request_entry α) (es : List (request_entry α))
    (h : 1 ≤ free_count es) : ∃ es', add_loop e es = some es' := by
  induction es with
  | nil => simp [free_count] at h
  | cons hd tl ih =>
    by_cases hfree : hd.id = -1
    · exact ⟨e :: tl, by simp [add_loop, if_pos hfree]⟩
    · have htl : 1 ≤ free_count tl := by
        have h1 : free_count (hd :: tl) = free_count tl := by
          simp [free_count, List.countP_cons, hfree]
        omega
      obtain ⟨tl', htl'⟩ := ih htl
      exact ⟨hd :: tl', by simp [add_loop, if_neg hfree, htl']⟩

theorem request_queue_add_succeeds (q : request_queue α) (d : α) (now : Int)
    (hfree : 1 ≤ free_count q.entries) (hpos : 1 ≤ q.next_id) :
    ∃ q', request_queue_add q d now = some (q', q.next_id) ∧
      q'.next_id = q.next_id + 1 ∧
      free_count q'.entries + 1 = free_count q.entries := by
  obtain ⟨es', hes'⟩ := add_loop_succeeds
    { id := q.next_id, state := .queued, request_data := some d,
      response_data := none, timestamp := now } q.entries hfree
  refine ⟨{ entries := es', next_id := q.next_id + 1 }, ?_, rfl, ?_⟩
  · unfold request_queue_add
    rw [hes']
  · exact add_loop_free_count hes' (by simp; omega)

theorem switch_set_params_length (i : Int) (b : Bool) :
    0 < (switch_set_params i b).length := by
  unfold switch_set_params
  simp only [String.length_append]
  have h6 : ("\x7b\"id\":" : String).length = 6 := rfl
  omega

theorem id_only_params_length (i : Int) :
    0 < (id_only_params i).length := by
  unfold id_only_params
  simp only [String.length_append]
  have h6 : ("\x7b\"id\":" : String).length = 6 := rfl
  omega

theorem jsonrpc_build_request_pos (m : String) (i : Int) (p : String)
    (h : 0 < p.length) :
    jsonrpc_build_request m i (some p) = { method := m, id := i, params := some p } := by
  simp only [jsonrpc_build_request]
  rw [if_pos h]

/-- C8: a write to /proc/switch/<i>/output for a valid switch slot takes the
immediate path with no per-open buffer: the payload is parsed as a boolean
(a payload beginning "true" or whose first byte is '1' means on; anything
else means off), exactly one Switch.Set with params `{"id":i,"on":b}` is
enqueued, followed by exactly one Switch.GetStatus with params `{"id":i}`,
and the byte count is returned.  In particular writing "true\n" to
/proc/switch/0/output enqueues Switch.Set `{"id":0,"on":true}` then
Switch.GetStatus `{"id":0}`. -/
theorem C8_switch_output_write (switch_id : Int) (buf : List Char)
    (q : request_queue Rpc) (now : Int)
    (h0 : 0 ≤ switch_id) (hmax : switch_id < MAX_SWITCHES) (hbuf : buf ≠ [])
    (hfree : 2 ≤ free_count q.entries) (hpos : 1 ≤ q.next_id) :
    (∃ q2, shuse_write_switch_output true switch_id buf q now =
      ((buf.length : Int), q2,
        [{ method := "Switch.Set", id := q.next_id,
           params := some (switch_set_params switch_id (parse_output_payload buf)) },
         { method := "Switch.GetStatus", id := q.next_id + 1,
           params := some (id_only_params switch_id) }])) ∧
    (parse_output_payload buf = true ↔
      (buf.take 4 = ['t', 'r', 'u', 'e'] ∨ buf.head? = some '1')) ∧
    (shuse_write_switch_output true 0 ("true\n".toList)
        request_queue_init 0).1 = 5 ∧
    (shuse_write_switch_output true 0 ("true\n".toList)
        request_queue_init 0).2.2 =
      [{ method := "Switch.Set", id := 1,
         params := some "\x7b\"id\":0,\"on\":true\x7d" },
       { method := "Switch.GetStatus", id := 2,
         params := some "\x7b\"id\":0\x7d" }] := by
  have hmax16 : switch_id < 16 := hmax
  have hcond : ¬(switch_id < 0 ∨ MAX_SWITCHES ≤ switch_id) := by
    push_neg
    exact ⟨h0, hmax⟩
  have hlen : buf.length > 0 := List.length_pos.mpr hbuf
  obtain ⟨q1, h1, h1n, h1f⟩ := request_queue_add_succeeds q
    ({ method := "Switch.Set", id := q.next_id,
       params := some (switch_set_params switch_id (parse_output_payload buf)) } : Rpc)
    now (by omega) hpos
  have hset : device_state_set_switch q switch_id (parse_output_payload buf) now =
      some (q1,
        ({ method := "Switch.Set", id := q.next_id,
           params := some (switch_set_params switch_id (parse_output_payload buf)) } : Rpc),
        q.next_id) := by
    unfold device_state_set_switch
    rw [if_neg hcond]
    simp only [request_queue_peek_next_id,
      jsonrpc_build_request_pos _ _ _ (switch_set_params_length _ _), h1]
  obtain ⟨q2, h2, h2n, h2f⟩ := request_queue_add_succeeds q1
    ({ method := "Switch.GetStatus", id := q1.next_id,
       params := some (id_only_params switch_id) } : Rpc)
    now (by omega) (by omega)
  have hgs : device_state_request_switch_status q1 switch_id now =
      some (q2,
        ({ method := "Switch.GetStatus", id := q1.next_id,
           params := some (id_only_params switch_id) } : Rpc),
        q1.next_id) := by
    unfold device_state_request_switch_status
    rw [if_neg hcond]
    simp only [request_queue_peek_next_id,
      jsonrpc_build_request_pos _ _ _ (id_only_params_length _), h2]
  have htakeA : (buf.length ≥ 4 ∧ buf.take 4 = ['t', 'r', 'u', 'e']) ↔
      buf.take 4 = ['t', 'r', 'u', 'e'] := by
    constructor
    · exact fun h => h.2
    · intro h
      refine ⟨?_, h⟩
      have hl := congrArg List.length h
      simp only [List.length_take] at hl
      simp only [List.length_cons, List.length_nil] at hl
      omega
  have hheadB : (buf.length ≥ 1 ∧ buf.head? = some '1') ↔
      buf.head? = some '1' := by
    constructor
    · exact fun h => h.2
    · intro h
      refine ⟨?_, h⟩
      cases buf with
      | nil => simp at h
      | cons c cs => simp
  refine ⟨⟨q2, ?_⟩, ?_, by decide, by decide⟩
  · unfold shuse_write_switch_output
    rw [if_pos rfl, if_pos hlen]
    simp only [hset, hgs, h1n]
  · unfold parse_output_payload
    split_ifs with hA hB
    · simp [htakeA.mp hA]
    · simp [hheadB.mp hB]
    · have hnA : ¬buf.take 4 = ['t', 'r', 'u', 'e'] := fun hc => hA (htakeA.mpr hc)
      have hnB : ¬buf.head? = some '1' := fun hc => hB (hheadB.mpr hc)
      simp [hnA, hnB]

/-- Witness for C8: the spec scenario S5 itself, via the theorem applied to a
concrete one-byte payload. -/
theorem C8_switch_output_write_witness :
    (shuse_write_switch_output true 0 ("true\n".toList)
        request_queue_init 0).1 = 5 ∧
    (shuse_write_switch_output true 0 ("true\n".toList)
        request_queue_init 0).2.2 =
      [{ method := "Switch.Set", id := 1,
         params := some "\x7b\"id\":0,\"on\":true\x7d" },
       { method := "Switch.GetStatus", id := 2,
         params := some "\x7b\"id\":0\x7d" }] := by
  obtain ⟨hex, hiff, hc1, hc2⟩ := C8_switch_output_write 0 ['1']
    request_queue_init 0 (by decide) (by decide) (by decide) (by decide) (by decide)
  exact ⟨hc1, hc2⟩

/-- C3: for every switch slot and telemetry field, a status merge whose
observed value equals the cached value leaves that field's modification
instant (and value) unchanged; one whose value differs overwrites the
cached value (source strings truncated to the 31-byte capacity of the C
buffer) and sets the instant to the merge time, which is then no earlier
than the previous instant.  Concretely (scenario S2): merging output=true,
apower=10.0 at t=100 over the zero status sets mtime_output = mtime_apower
= 100, and a second merge of output=true, apower=10.5 at t=101 leaves
mtime_output = 100 and sets mtime_apower = 101 with the new value stored. -/
theorem C3_per_field_mtime (st : switch_status) (obs : switch_status_obs)
    (now : Int) (f : sw_field) :
    (∀ v, sw_get_obs obs f = some v → v = sw_get_value st f →
      sw_get_mtime (merge_switch_status st obs now) f = sw_get_mtime st f ∧
      sw_get_value (merge_switch_status st obs now) f = sw_get_value st f) ∧
    (∀ v, sw_get_obs obs f = some v → v ≠ sw_get_value st f →
      sw_get_value (merge_switch_status st obs now) f = sw_store_value f v ∧
      sw_get_mtime (merge_switch_status st obs now) f = now) ∧
    (sw_get_mtime st f ≤ now →
      sw_get_mtime st f ≤ sw_get_mtime (merge_switch_status st obs now) f) ∧
    rat_ten_point_five = 10.5 ∧
    sw_s2_st1.mtime_output = 100 ∧
    sw_s2_st1.mtime_apower = 100 ∧
    sw_s2_st2.mtime_output = 100 ∧
    sw_s2_st2.mtime_apower = 101 ∧
    sw_s2_st2.apower = rat_ten_point_five := by
  refine ⟨?_, ?_, ?_, ?_, by decide, by decide, by decide, by decide, by decide⟩
  · cases f with
    | id =>
      intro v hv heq
      simp only [sw_get_obs] at hv
      rw [Option.map_eq_some'] at hv
      obtain ⟨w, hw, rfl⟩ := hv
      simp only [sw_get_value] at heq
      injection heq with heq'
      subst heq'
      simp [merge_switch_status, sw_get_mtime, sw_get_value, hw]
    | source =>
      intro v hv heq
      simp only [sw_get_obs] at hv
      rw [Option.map_eq_some'] at hv
      obtain ⟨w, hw, rfl⟩ := hv
      simp only [sw_get_value] at heq
      injection heq with heq'
      subst heq'
      simp [merge_switch_status, sw_get_mtime, sw_get_value, hw]
    | output =>
      intro v hv heq
      simp only [sw_get_obs] at hv
      rw [Option.map_eq_some'] at hv
      obtain ⟨w, hw, rfl⟩ := hv
      simp only [sw_get_value] at heq
      injection heq with heq'
      subst heq'
      simp [merge_switch_status, sw_get_mtime, sw_get_value, hw]
    | apower =>
      intro v hv heq
      simp only [sw_get_obs] at hv
      rw [Option.map_eq_some'] at hv
      obtain ⟨w, hw, rfl⟩ := hv
      simp only [sw_get_value] at heq
      injection heq with heq'
      subst heq'
      simp [merge_switch_status, sw_get_mtime, sw_get_value, hw]
    | voltage =>
      intro v hv heq
      simp only [sw_get_obs] at hv
      rw [Option.map_eq_some'] at hv
      obtain ⟨w, hw, rfl⟩ := hv
      simp only [sw_get_value] at heq
      injection heq with heq'
      subst heq'
      simp [merge_switch_status, sw_get_mtime, sw_get_value, hw]
    | current =>
      intro v hv heq
      simp only [sw_get_obs] at hv
      rw [Option.map_eq_some'] at hv
      obtain ⟨w, hw, rfl⟩ := hv
      simp only [sw_get_value] at heq
      injection heq with heq'
      subst heq'
      simp [merge_switch_status, sw_get_mtime, sw_get_value, hw]
    | freq =>
      intro v hv heq
      simp only [sw_get_obs] at hv
      rw [Option.map_eq_some'] at hv
      obtain ⟨w, hw, rfl⟩ := hv
      simp only [sw_get_value] at heq
      injection heq with heq'
      subst heq'
      simp [merge_switch_status, sw_get_mtime, sw_get_value, hw]
    | energy =>
      intro v hv heq
      simp only [sw_get_obs] at hv
      rw [Option.map_eq_some'] at hv
      obtain ⟨w, hw, rfl⟩ := hv
      simp only [sw_get_value] at heq
      injection heq with heq'
      subst heq'
      simp [merge_switch_status, sw_get_mtime, sw_get_value, hw]
    | ret_energy =>
      intro v hv heq
      simp only [sw_get_obs] at hv
      rw [Option.map_eq_some'] at hv
      obtain ⟨w, hw, rfl⟩ := hv
      simp only [sw_get_value] at heq
      injection heq with heq'
      subst heq'
      simp [merge_switch_status, sw_get_mtime, sw_get_value, hw]
    | temperature =>
      intro v hv heq
      simp only [sw_get_obs] at hv
      rw [Option.map_eq_some'] at hv
      obtain ⟨w, hw, rfl⟩ := hv
      simp only [sw_get_value] at heq
      injection heq with heq'
      subst heq'
      simp [merge_switch_status, sw_get_mtime, sw_get_value, hw]
  · cases f with
    | id =>
      intro v hv hne
      simp only [sw_get_obs] at hv
      rw [Option.map_eq_some'] at hv
      obtain ⟨w, hw, rfl⟩ := hv
      simp only [sw_get_value] at hne
      have hwne : st.id ≠ w := fun hc => hne (by rw [hc])
      simp [merge_switch_status, sw_get_mtime, sw_get_value, sw_store_value, hw, hwne]
    | source =>
      intro v hv hne
      simp only [sw_get_obs] at hv
      rw [Option.map_eq_some'] at hv
      obtain ⟨w, hw, rfl⟩ := hv
      simp only [sw_get_value] at hne
      have hwne : st.source ≠ w := fun hc => hne (by rw [hc])
      simp [merge_switch_status, sw_get_mtime, sw_get_value, sw_store_value, hw, hwne]
    | output =>
      intro v hv hne
      simp only [sw_get_obs] at hv
      rw [Option.map_eq_some'] at hv
      obtain ⟨w, hw, rfl⟩ := hv
      simp only [sw_get_value] at hne
      have hwne : st.output ≠ w := fun hc => hne (by rw [hc])
      simp [merge_switch_status, sw_get_mtime, sw_get_value, sw_store_value, hw, hwne]
    | apower =>
      intro v hv hne
      simp only [sw_get_obs] at hv
      rw [Option.map_eq_some'] at hv
      obtain ⟨w, hw, rfl⟩ := hv
      simp only [sw_get_value] at hne
      have hwne : st.apower ≠ w := fun hc => hne (by rw [hc])
      simp [merge_switch_status, sw_get_mtime, sw_get_value, sw_store_value, hw, hwne]
    | voltage =>
      intro v hv hne
      simp only [sw_get_obs] at hv
      rw [Option.map_eq_some'] at hv
      obtain ⟨w, hw, rfl⟩ := hv
      simp only [sw_get_value] at hne
      have hwne : st.voltage ≠ w := fun hc => hne (by rw [hc])
      simp [merge_switch_status, sw_get_mtime, sw_get_value, sw_store_value, hw, hwne]
    | current =>
      intro v hv hne
      simp only [sw_get_obs] at hv
      rw [Option.map_eq_some'] at hv
      obtain ⟨w, hw, rfl⟩ := hv
      simp only [sw_get_value] at hne
      have hwne : st.current ≠ w := fun hc => hne (by rw [hc])
      simp [merge_switch_status, sw_get_mtime, sw_get_value, sw_store_value, hw, hwne]
    | freq =>
      intro v hv hne
      simp only [sw_get_obs] at hv
      rw [Option.map_eq_some'] at hv
      obtain ⟨w, hw, rfl⟩ := hv
      simp only [sw_get_value] at hne
      have hwne : st.freq ≠ w := fun hc => hne (by rw [hc])
      simp [merge_switch_status, sw_get_mtime, sw_get_value, sw_store_value, hw, hwne]
    | energy =>
      intro v hv hne
      simp only [sw_get_obs] at hv
      rw [Option.map_eq_some'] at hv
      obtain ⟨w, hw, rfl⟩ := hv
      simp only [sw_get_value] at hne
      have hwne : st.energy_total ≠ w := fun hc => hne (by rw [hc])
      simp [merge_switch_status, sw_get_mtime, sw_get_value, sw_store_value, hw, hwne]
    | ret_energy =>
      intro v hv hne
      simp only [sw_get_obs] at hv
      rw [Option.map_eq_some'] at hv
      obtain ⟨w, hw, rfl⟩ := hv
      simp only [sw_get_value] at hne
      have hwne : st.ret_energy_total ≠ w := fun hc => hne (by rw [hc])
      simp [merge_switch_status, sw_get_mtime, sw_get_value, sw_store_value, hw, hwne]
    | temperature =>
      intro v hv hne
      simp only [sw_get_obs] at hv
      rw [Option.map_eq_some'] at hv
      obtain ⟨w, hw, rfl⟩ := hv
      simp only [sw_get_value] at hne
      have hwne : st.temperature_c ≠ w := fun hc => hne (by rw [hc])
      simp [merge_switch_status, sw_get_mtime, sw_get_value, sw_store_value, hw, hwne]
  · cases f with
    | id =>
      intro hle
      simp only [sw_get_mtime] at hle
      cases hw : obs.id with
      | none => simp [merge_switch_status, sw_get_mtime, hw]
      | some w =>
        simp only [merge_switch_status, sw_get_mtime, hw]
        split <;> omega
    | source =>
      intro hle
      simp only [sw_get_mtime] at hle
      cases hw : obs.source with
      | none => simp [merge_switch_status, sw_get_mtime, hw]
      | some w =>
        simp only [merge_switch_status, sw_get_mtime, hw]
        split <;> omega
    | output =>
      intro hle
      simp only [sw_get_mtime] at hle
      cases hw : obs.output with
      | none => simp [merge_switch_status, sw_get_mtime, hw]
      | some w =>
        simp only [merge_switch_status, sw_get_mtime, hw]
        split <;> omega
    | apower =>
      intro hle
      simp only [sw_get_mtime] at hle
      cases hw : obs.apower with
      | none => simp [merge_switch_status, sw_get_mtime, hw]
      | some w =>
        simp only [merge_switch_status, sw_get_mtime, hw]
        split <;> omega
    | voltage =>
      intro hle
      simp only [sw_get_mtime] at hle
      cases hw : obs.voltage with
      | none => simp [merge_switch_status, sw_get_mtime, hw]
      | some w =>
        simp only [merge_switch_status, sw_get_mtime, hw]
        split <;> omega
    | current =>
      intro hle
      simp only [sw_get_mtime] at hle
      cases hw : obs.current with
      | none => simp [merge_switch_status, sw_get_mtime, hw]
      | some w =>
        simp only [merge_switch_status, sw_get_mtime, hw]
        split <;> omega
    | freq =>
      intro hle
      simp only [sw_get_mtime] at hle
      cases hw : obs.freq with
      | none => simp [merge_switch_status, sw_get_mtime, hw]
      | some w =>
        simp only [merge_switch_status, sw_get_mtime, hw]
        split <;> omega
    | energy =>
      intro hle
      simp only [sw_get_mtime] at hle
      cases hw : obs.energy_total with
      | none => simp [merge_switch_status, sw_get_mtime, hw]
      | some w =>
        simp only [merge_switch_status, sw_get_mtime, hw]
        split <;> omega
    | ret_energy =>
      intro hle
      simp only [sw_get_mtime] at hle
      cases hw : obs.ret_energy_total with
      | none => simp [merge_switch_status, sw_get_mtime, hw]
      | some w =>
        simp only [merge_switch_status, sw_get_mtime, hw]
        split <;> omega
    | temperature =>
      intro hle
      simp only [sw_get_mtime] at hle
      cases hw : obs.temperature_c with
      | none => simp [merge_switch_status, sw_get_mtime, hw]
      | some w =>
        simp only [merge_switch_status, sw_get_mtime, hw]
        split <;> omega
  · show (⟨21, 2, by norm_num, by norm_num⟩ : Rat) = 10.5
    rw [Rat.mk'_eq_divInt, Rat.divInt_eq_div]
    norm_num

/-- Witness for C3 at a concrete state and observation (field apower,
observed 3.0 against cached 0.0). -/
theorem C3_per_field_mtime_witness :
    sw_get_value (merge_switch_status switch_status_zero
        { switch_status_obs_empty with apower := some 3 } 7) sw_field.apower =
      sw_store_value sw_field.apower (sw_value.of_rat 3) ∧
    sw_get_mtime (merge_switch_status switch_status_zero
        { switch_status_obs_empty with apower := some 3 } 7) sw_field.apower = 7 := by
  exact (C3_per_field_mtime switch_status_zero
    { switch_status_obs_empty with apower := some 3 } 7 sw_field.apower).2.1
    (sw_value.of_rat 3) (by decide) (by decide)

/-- C4: for a Sys.SetConfig or MQTT.SetConfig response carrying an error
object, the response handler leaves the corresponding cache slice (raw
document, parsed fields, validity, last_update) completely unchanged — a
subsequent read of the config file returns exactly the pre-flush cache
bytes for every offset and size; on a success response it instead queues
exactly one corresponding GetConfig. -/
theorem C4_setconfig_error_preserves_cache (k : config_kind)
    (st : config_state) (q : request_queue Rpc) (now : Int)
    (hpos : 1 ≤ q.next_id) :
    (ws_handle_setconfig_response k st q true now = (st, q, []) ∧
      ∀ offset size,
        shuse_read_config k (ws_handle_setconfig_response k st q true now).1
          offset size = shuse_read_config k st offset size) ∧
    (1 ≤ free_count q.entries →
      ∃ q', ws_handle_setconfig_response k st q false now =
        (st, q', [{ method := k.get_method, id := q.next_id, params := none }])) := by
  refine ⟨⟨rfl, fun offset size => rfl⟩, ?_⟩
  intro hfree
  obtain ⟨q', hadd, hn, hf⟩ := request_queue_add_succeeds q
    ({ method := k.get_method, id := q.next_id, params := none } : Rpc) now hfree hpos
  refine ⟨q', ?_⟩
  unfold ws_handle_setconfig_response
  rw [if_neg (by simp)]
  unfold device_state_request_config
  have hb : jsonrpc_build_request k.get_method q.next_id none =
      ({ method := k.get_method, id := q.next_id, params := none } : Rpc) := rfl
  simp only [request_queue_peek_next_id, hb, hadd]

/-- Witness for C4 on a concrete populated cache and fresh registry. -/
theorem C4_setconfig_error_preserves_cache_witness :
    ws_handle_setconfig_response config_kind.sys config_state_example
      request_queue_init true 60 =
      (config_state_example, request_queue_init, []) ∧
    (ws_handle_setconfig_response config_kind.sys config_state_example
      request_queue_init false 60).2.2 =
      [{ method := "Sys.GetConfig", id := 1, params := none }] := by
  have h := C4_setconfig_error_preserves_cache config_kind.sys
    config_state_example request_queue_init 60 (by decide)
  refine ⟨h.1.1, ?_⟩
  obtain ⟨q', hq'⟩ := h.2 (by decide)
  rw [hq']
  rfl

/-- C9: flushing a config file whose write buffer does not parse as JSON
returns -EINVAL, enqueues no RPC (queue and trace unchanged), and leaves
the cache unchanged, so a subsequent read of the file returns the prior
content for every offset and size. -/
theorem C9_invalid_json_flush_rejected (k : config_kind) (st : config_state)
    (conn : Bool) (wbuf : String) (q : request_queue Rpc) (now : Int)
    (hw : 0 < wbuf.length) :
    shuse_flush_config k st conn wbuf false q now = (-EINVAL, st, q, []) ∧
    ∀ offset size,
      shuse_read_config k
        (shuse_flush_config k st conn wbuf false q now).2.1 offset size =
      shuse_read_config k st offset size := by
  have h1 : shuse_flush_config k st conn wbuf false q now = (-EINVAL, st, q, []) := by
    unfold shuse_flush_config
    rw [if_pos hw, if_pos (by simp)]
  exact ⟨h1, fun offset size => by rw [h1]⟩

/-- Witness for C9: the S6 scenario — writing a non-JSON string to
/sys_config.json is rejected with -EINVAL and the prior content is still
read back. -/
theorem C9_invalid_json_flush_rejected_witness :
    shuse_flush_config config_kind.sys config_state_example true
      "not json" false request_queue_init 60 =
      (-EINVAL, config_state_example, request_queue_init, []) ∧
    shuse_read_config config_kind.sys
      (shuse_flush_config config_kind.sys config_state_example true
        "not json" false request_queue_init 60).2.1 0 1000 =
      shuse_read_config config_kind.sys config_state_example 0 1000 := by
  have h := C9_invalid_json_flush_rejected config_kind.sys config_state_example
    true "not json" request_queue_init 60 (by decide)
  exact ⟨h.1, h.2 0 1000⟩

/-! Chunking lemmas for C2. -/

theorem script_chunks_fuel_nil (n : Nat) : script_chunks_fuel n [] = [] := by
  cases n with
  | zero => rfl
  | succ m => simp [script_chunks_fuel]

theorem script_chunks_fuel_invariant (n : Nat) :
    ∀ (m : Nat) (l : List Char), l.length ≤ n → l.length ≤ m →
      script_chunks_fuel n l = script_chunks_fuel m l := by
  induction n with
  | zero =>
    intro m l hn hm
    have hnil : l = [] := by cases l with
      | nil => rfl
      | cons a t => simp at hn
    subst hnil
    rw [script_chunks_fuel_nil, script_chunks_fuel_nil]
  | succ k ih =>
    intro m l hn hm
    by_cases h : l = []
    · subst h
      rw [script_chunks_fuel_nil, script_chunks_fuel_nil]
    · have hp : 0 < l.length := List.length_pos.mpr h
      cases m with
      | zero => omega
      | succ m' =>
        simp only [script_chunks_fuel, if_neg h]
        have hd : (l.drop SCRIPT_CHUNK_SIZE).length < l.length := by
          simp only [List.length_drop, SCRIPT_CHUNK_SIZE]
          omega
        rw [ih m' (l.drop SCRIPT_CHUNK_SIZE) (by omega) (by omega)]

theorem script_chunks_nil : script_chunks [] = [] := rfl

theorem script_chunks_cons (l : List Char) (h : l ≠ []) :
    script_chunks l =
      l.take SCRIPT_CHUNK_SIZE :: script_chunks (l.drop SCRIPT_CHUNK_SIZE) := by
  have hp : 0 < l.length := List.length_pos.mpr h
  show script_chunks_fuel l.length l = _
  cases hl : l.length with
  | zero => omega
  | succ k =>
    simp only [script_chunks_fuel, if_neg h]
    show _ = _ :: script_chunks_fuel (l.drop SCRIPT_CHUNK_SIZE).length _
    rw [script_chunks_fuel_invariant k (l.drop SCRIPT_CHUNK_SIZE).length
      (l.drop SCRIPT_CHUNK_SIZE) ?_ le_rfl]
    simp only [List.length_drop, SCRIPT_CHUNK_SIZE]
    omega

theorem script_chunks_drop_len (l : List Char) (h : l ≠ []) :
    (l.drop SCRIPT_CHUNK_SIZE).length < l.length := by
  have hp : 0 < l.length := List.length_pos.mpr h
  simp only [List.length_drop, SCRIPT_CHUNK_SIZE]
  omega

theorem script_chunks_join_aux (n : Nat) :
    ∀ l : List Char, l.length ≤ n → (script_chunks l).flatten = l := by
  induction n with
  | zero =>
    intro l hl
    have hnil : l = [] := by cases l with
      | nil => rfl
      | cons a t => simp at hl
    subst hnil
    simp [script_chunks_nil]
  | succ m ih =>
    intro l hl
    by_cases h : l = []
    · subst h; simp [script_chunks_nil]
    · rw [script_chunks_cons l h]
      simp only [List.flatten_cons]
      rw [ih (l.drop SCRIPT_CHUNK_SIZE) (by
        have := script_chunks_drop_len l h
        omega)]
      exact List.take_append_drop _ l

theorem script_chunks_join (l : List Char) : (script_chunks l).flatten = l :=
  script_chunks_join_aux l.length l le_rfl

theorem script_chunks_count_aux (n : Nat) :
    ∀ l : List Char, l.length ≤ n →
      (script_chunks l).length =
        (l.length + SCRIPT_CHUNK_SIZE - 1) / SCRIPT_CHUNK_SIZE := by
  induction n with
  | zero =>
    intro l hl
    have hnil : l = [] := by cases l with
      | nil => rfl
      | cons a t => simp at hl
    subst hnil
    simp [script_chunks_nil, SCRIPT_CHUNK_SIZE]
  | succ m ih =>
    intro l hl
    by_cases h : l = []
    · subst h; simp [script_chunks_nil, SCRIPT_CHUNK_SIZE]
    · rw [script_chunks_cons l h]
      simp only [List.length_cons]
      rw [ih (l.drop SCRIPT_CHUNK_SIZE) (by
        have := script_chunks_drop_len l h
        omega)]
      have hp : 0 < l.length := List.length_pos.mpr h
      simp only [List.length_drop, SCRIPT_CHUNK_SIZE]
      omega

theorem script_chunks_count (l : List Char) :
    (script_chunks l).length =
      (l.length + SCRIPT_CHUNK_SIZE - 1) / SCRIPT_CHUNK_SIZE :=
  script_chunks_count_aux l.length l le_rfl

theorem script_chunks_sizes_aux (n : Nat) :
    ∀ l : List Char, l.length ≤ n →
      ∀ c ∈ script_chunks l, 0 < c.length ∧ c.length ≤ SCRIPT_CHUNK_SIZE := by
  induction n with
  | zero =>
    intro l hl c hc
    have hnil : l = [] := by cases l with
      | nil => rfl
      | cons a t => simp at hl
    subst hnil
    simp [script_chunks_nil] at hc
  | succ m ih =>
    intro l hl c hc
    by_cases h : l = []
    · subst h; simp [script_chunks_nil] at hc
    · rw [script_chunks_cons l h] at hc
      rcases List.mem_cons.mp hc with rfl | hc
      · have hp : 0 < l.length := List.length_pos.mpr h
        constructor
        · simp only [List.length_take]
          simp only [SCRIPT_CHUNK_SIZE]
          omega
        · simp only [List.length_take]
          omega
      · exact ih (l.drop SCRIPT_CHUNK_SIZE)
          (by have := script_chunks_drop_len l h; omega) c hc

theorem script_chunks_sizes (l : List Char) :
    ∀ c ∈ script_chunks l, 0 < c.length ∧ c.length ≤ SCRIPT_CHUNK_SIZE :=
  script_chunks_sizes_aux l.length l le_rfl

theorem script_chunks_ne_nil (l : List Char) (h : l ≠ []) :
    script_chunks l ≠ [] := by
  rw [script_chunks_cons l h]
  simp

theorem script_chunks_last_aux (n : Nat) :
    ∀ l : List Char, l.length ≤ n → l.length % SCRIPT_CHUNK_SIZE ≠ 0 →
      ((script_chunks l).getLast?).map List.length =
        some (l.length % SCRIPT_CHUNK_SIZE) := by
  induction n with
  | zero =>
    intro l hl hm
    have hnil : l = [] := by cases l with
      | nil => rfl
      | cons a t => simp at hl
    subst hnil
    simp [SCRIPT_CHUNK_SIZE] at hm
  | succ m ih =>
    intro l hl hm
    by_cases h : l = []
    · subst h; simp [SCRIPT_CHUNK_SIZE] at hm
    · rw [script_chunks_cons l h]
      by_cases hrest : l.drop SCRIPT_CHUNK_SIZE = []
      · rw [hrest, script_chunks_nil]
        have hp : 0 < l.length := List.length_pos.mpr h
        have hlen : l.length ≤ SCRIPT_CHUNK_SIZE := by
          have := congrArg List.length hrest
          simp only [List.length_drop, List.length_nil] at this
          omega
        simp only [List.getLast?_singleton, Option.map_some', List.length_take]
        have : min SCRIPT_CHUNK_SIZE l.length = l.length := by omega
        rw [this]
        congr 1
        simp only [SCRIPT_CHUNK_SIZE] at hm hlen ⊢
        omega
      · have hne := script_chunks_ne_nil _ hrest
        cases hck : script_chunks (l.drop SCRIPT_CHUNK_SIZE) with
        | nil => exact absurd hck hne
        | cons c0 cs =>
          rw [List.getLast?_cons_cons]
          rw [← hck]
          have hdm : (l.drop SCRIPT_CHUNK_SIZE).length % SCRIPT_CHUNK_SIZE =
              l.length % SCRIPT_CHUNK_SIZE := by
            have hp : 0 < l.length := List.length_pos.mpr h
            have hgt : SCRIPT_CHUNK_SIZE < l.length := by
              by_contra hc
              push_neg at hc
              exact hrest (List.drop_eq_nil_of_le hc)
            simp only [List.length_drop, SCRIPT_CHUNK_SIZE] at hgt ⊢
            omega
          rw [← hdm]
          exact ih (l.drop SCRIPT_CHUNK_SIZE)
            (by have := script_chunks_drop_len l h; omega)
            (by rw [hdm]; exact hm)

theorem script_chunks_last (l : List Char)
    (hm : l.length % SCRIPT_CHUNK_SIZE ≠ 0) :
    ((script_chunks l).getLast?).map List.length =
      some (l.length % SCRIPT_CHUNK_SIZE) :=
  script_chunks_last_aux l.length l le_rfl hm

theorem put_code_params_length (sid : Int) (c : List Char) (b : Bool) :
    0 < (put_code_params sid c b).length := by
  unfold put_code_params
  simp only [String.length_append]
  have h6 : ("\x7b\"id\":" : String).length = 6 := rfl
  omega

theorem put_code_trace_length (script_id : Int) :
    ∀ (chunks : List (List Char)) (cn : Nat) (fid : Int),
      (put_code_trace script_id chunks cn fid).length = chunks.length := by
  intro chunks
  induction chunks with
  | nil => intro cn fid; rfl
  | cons c rest ih =>
    intro cn fid
    simp only [put_code_trace, List.length_cons, ih]

theorem put_code_trace_get (script_id : Int) :
    ∀ (chunks : List (List Char)) (cn : Nat) (fid : Int) (k : Nat),
      (put_code_trace script_id chunks cn fid)[k]? =
        (chunks[k]?).map (fun c =>
          ({ method := "Script.PutCode", id := fid + (k : Int),
             params := some (put_code_params script_id c (decide (cn + k > 0))) } : Rpc)) := by
  intro chunks
  induction chunks with
  | nil => intro cn fid k; simp [put_code_trace]
  | cons c rest ih =>
    intro cn fid k
    cases k with
    | zero => simp [put_code_trace]
    | succ j =>
      simp only [put_code_trace, List.getElem?_cons_succ]
      rw [ih (cn + 1) (fid + 1) j]
      have hcn : cn + 1 + j = cn + (j + 1) := by omega
      have hid : fid + 1 + (j : Int) = fid + ((j : Nat) + 1 : Int) := by push_cast; ring
      simp only [hcn, hid]
      norm_cast

theorem put_code_loop_spec (script_id : Int) (now : Int) :
    ∀ (chunks : List (List Char)) (cn : Nat) (q : request_queue Rpc),
      chunks.length ≤ free_count q.entries → 1 ≤ q.next_id →
      ∃ q', put_code_loop script_id chunks cn q now =
          some (q', put_code_trace script_id chunks cn q.next_id,
            if chunks.isEmpty then -1
            else q.next_id + (chunks.length : Int) - 1) ∧
        q'.next_id = q.next_id + (chunks.length : Int) ∧
        free_count q'.entries + chunks.length = free_count q.entries := by
  intro chunks
  induction chunks with
  | nil =>
    intro cn q hfree hpos
    exact ⟨q, by simp [put_code_loop, put_code_trace], by simp, by simp⟩
  | cons c rest ih =>
    intro cn q hfree hpos
    simp only [List.length_cons] at hfree
    obtain ⟨q1, hadd, h1n, h1f⟩ := request_queue_add_succeeds q
      ({ method := "Script.PutCode", id := q.next_id,
         params := some (put_code_params script_id c (decide (cn > 0))) } : Rpc)
      now (by omega) hpos
    obtain ⟨q', hloop, hn, hf⟩ := ih (cn + 1) q1 (by omega) (by omega)
    have hunf : put_code_loop script_id (c :: rest) cn q now =
        match put_code_loop script_id rest (cn + 1) q1 now with
        | none => none
        | some (q'', tr, last) =>
          some (q'',
            ({ method := "Script.PutCode", id := q.next_id,
               params := some (put_code_params script_id c (decide (cn > 0))) } : Rpc) :: tr,
            if rest.isEmpty then q.next_id else last) := by
      simp only [put_code_loop, request_queue_peek_next_id,
        jsonrpc_build_request_pos _ _ _ (put_code_params_length _ _ _), hadd]
    refine ⟨q', ?_, ?_, ?_⟩
    · rw [hunf, hloop]
      simp only [Option.some.injEq, Prod.mk.injEq]
      refine ⟨trivial, ?_, ?_⟩
      · rw [h1n]
        rfl
      · cases rest with
        | nil => simp
        | cons d ds =>
          simp only [List.isEmpty_cons, Bool.false_eq_true, if_false,
            List.length_cons, h1n]
          push_cast
          ring
    · rw [hn, h1n]
      simp only [List.length_cons]
      push_cast
      ring
    · simp only [List.length_cons]
      omega

theorem find_update_script_slot (script_id : Int) (code : String)
    (now last : Int) :
    ∀ (scripts : List script_entry) (s : script_entry),
      scripts.find? (fun t => t.id == script_id && t.valid) = some s →
      (update_script_slot scripts script_id code now last).find?
          (fun t => t.id == script_id && t.valid) =
        some { s with
          code := some code, modify_time := now, last_upload_req_id := last } := by
  intro scripts
  induction scripts with
  | nil => intro s h; simp [List.find?] at h
  | cons t rest ih =>
    intro s h
    by_cases hc : t.id = script_id ∧ t.valid
    · have hp : (t.id == script_id && t.valid) = true := by
        simp [hc.1, hc.2]
      rw [@List.find?_cons_of_pos script_entry (fun u => u.id == script_id && u.valid)
        t rest hp] at h
      replace h := Option.some.inj h
      subst h
      unfold update_script_slot
      rw [if_pos hc]
      exact @List.find?_cons_of_pos script_entry (fun u => u.id == script_id && u.valid)
        _ _ (by simp [hc.1, hc.2])
    · have hp : (t.id == script_id && t.valid) = false := by
        rcases Decidable.not_and_iff_or_not.mp hc with h1 | h1
        · simp [h1]
        · simp [h1]
      rw [@List.find?_cons_of_neg script_entry (fun u => u.id == script_id && u.valid)
        t rest (by simp [hp])] at h
      unfold update_script_slot
      rw [if_neg hc]
      rw [@List.find?_cons_of_neg script_entry (fun u => u.id == script_id && u.valid)
        t (update_script_slot rest script_id code now last) (by simp [hp])]
      exact ih s h

theorem get_code_params_length (sid off : Int) :
    0 < (get_code_params sid off).length := by
  unfold get_code_params
  simp only [String.length_append]
  have h6 : ("\x7b\"id\":" : String).length = 6 := rfl
  omega

theorem request_script_code_spec (rt : scripts_retrieval) (q : request_queue Rpc)
    (script_id now : Int) (hr : ¬(script_id < 0 ∨ MAX_SCRIPTS ≤ script_id))
    (hfree : 1 ≤ free_count q.entries) (hpos : 1 ≤ q.next_id) :
    ∃ q', device_state_request_script_code rt q script_id now =
      some (if rt.retrieving_id ≠ script_id then
          ({ retrieving_id := script_id, current_offset := 0 } : scripts_retrieval)
        else rt, q',
        ({ method := "Script.GetCode", id := q.next_id,
           params := some (get_code_params script_id
             ((if rt.retrieving_id ≠ script_id then
                 ({ retrieving_id := script_id, current_offset := 0 } : scripts_retrieval)
               else rt).current_offset)) } : Rpc),
        q.next_id) := by
  obtain ⟨q', hadd, _, _⟩ := request_queue_add_succeeds q
    ({ method := "Script.GetCode", id := q.next_id,
       params := some (get_code_params script_id
         ((if rt.retrieving_id ≠ script_id then
             ({ retrieving_id := script_id, current_offset := 0 } : scripts_retrieval)
           else rt).current_offset)) } : Rpc) now hfree hpos
  refine ⟨q', ?_⟩
  unfold device_state_request_script_code
  rw [if_neg hr]
  simp only [request_queue_peek_next_id,
    jsonrpc_build_request_pos _ _ _ (get_code_params_length _ _), hadd]

/-- C2: for every script code body of length L > 0 and chunk size
SCRIPT_CHUNK_SIZE = 2048, device_state_put_script_code queues exactly
ceil(L/2048) Script.PutCode requests whose code payloads partition the body
in order, each of size at most 2048 and the last of size L mod 2048 when L
is not a multiple of 2048; the k-th request carries append = (k > 0), so
the first is "append":false and every later one "append":true, and has id
q.next_id + k; the id of the last chunk is recorded in the slot as
last_upload_req_id; when a success response whose id equals
last_upload_req_id arrives, the handler issues exactly one Script.GetCode
for that script id (an error response, an unknown script, or a non-final
chunk id issues nothing); and for L = 5000 the chunk sizes are
2048, 2048, 904 with append flags (false, true, true). -/
theorem C2_script_putcode_chunks (scripts : List script_entry)
    (q : request_queue Rpc) (script_id : Int) (code : String) (now : Int)
    (h0 : 0 ≤ script_id) (hmax : script_id < MAX_SCRIPTS)
    (hlen : 0 < code.toList.length)
    (hfree : (code.toList.length + SCRIPT_CHUNK_SIZE - 1) / SCRIPT_CHUNK_SIZE ≤
      free_count q.entries)
    (hpos : 1 ≤ q.next_id) :
    (∃ q', device_state_put_script_code scripts q script_id code now =
        some (update_script_slot scripts script_id code now
            (q.next_id + (((code.toList.length + SCRIPT_CHUNK_SIZE - 1) /
              SCRIPT_CHUNK_SIZE : Nat) : Int) - 1),
          q', put_code_trace script_id (script_chunks code.toList) 0 q.next_id,
          q.next_id + (((code.toList.length + SCRIPT_CHUNK_SIZE - 1) /
            SCRIPT_CHUNK_SIZE : Nat) : Int) - 1) ∧
      q'.next_id = q.next_id + (((code.toList.length + SCRIPT_CHUNK_SIZE - 1) /
        SCRIPT_CHUNK_SIZE : Nat) : Int)) ∧
    (put_code_trace script_id (script_chunks code.toList) 0 q.next_id).length =
      (code.toList.length + SCRIPT_CHUNK_SIZE - 1) / SCRIPT_CHUNK_SIZE ∧
    (script_chunks code.toList).flatten = code.toList ∧
    (∀ c ∈ script_chunks code.toList, 0 < c.length ∧ c.length ≤ SCRIPT_CHUNK_SIZE) ∧
    (code.toList.length % SCRIPT_CHUNK_SIZE ≠ 0 →
      ((script_chunks code.toList).getLast?).map List.length =
        some (code.toList.length % SCRIPT_CHUNK_SIZE)) ∧
    (∀ k : Nat, (put_code_trace script_id (script_chunks code.toList) 0 q.next_id)[k]? =
      ((script_chunks code.toList)[k]?).map (fun c =>
        ({ method := "Script.PutCode", id := q.next_id + (k : Int),
           params := some (put_code_params script_id c (decide (k > 0))) } : Rpc))) ∧
    (∀ (s : script_entry) (lastId : Int),
      scripts.find? (fun t => t.id == script_id && t.valid) = some s →
      (update_script_slot scripts script_id code now lastId).find?
          (fun t => t.id == script_id && t.valid) =
        some { s with
          code := some code, modify_time := now,
          last_upload_req_id := lastId }) ∧
    (∀ (scripts2 : List script_entry) (rt : scripts_retrieval)
        (q2 : request_queue Rpc) (msg_id : Int) (s : script_entry),
      find_script scripts2 script_id = some s →
      (s.last_upload_req_id = msg_id →
        1 ≤ free_count q2.entries → 1 ≤ q2.next_id →
        ∃ rt' q2', ws_handle_putcode_response scripts2 rt q2 script_id msg_id
            false now =
          (rt', q2',
            [({ method := "Script.GetCode", id := q2.next_id,
                params := some (get_code_params script_id rt'.current_offset) } : Rpc)])) ∧
      (s.last_upload_req_id ≠ msg_id →
        ws_handle_putcode_response scripts2 rt q2 script_id msg_id false now =
          (rt, q2, [])) ∧
      ws_handle_putcode_response scripts2 rt q2 script_id msg_id true now =
        (rt, q2, [])) ∧
    (script_chunks (List.replicate 5000 'a')).map List.length =
      [2048, 2048, 904] ∧
    put_code_trace 1 (script_chunks (List.replicate 5000 'a')) 0 1 =
      [({ method := "Script.PutCode", id := 1,
          params := some (put_code_params 1 (List.replicate 2048 'a') false) } : Rpc),
       ({ method := "Script.PutCode", id := 2,
          params := some (put_code_params 1 (List.replicate 2048 'a') true) } : Rpc),
       ({ method := "Script.PutCode", id := 3,
          params := some (put_code_params 1 (List.replicate 904 'a') true) } : Rpc)] := by
  have hr : ¬(script_id < 0 ∨ MAX_SCRIPTS ≤ script_id) := by
    simp only [MAX_SCRIPTS] at hmax ⊢
    omega
  have hne : code.toList ≠ [] := by
    intro hc
    rw [hc] at hlen
    simp at hlen
  have hcount := script_chunks_count code.toList
  have hnonempty : (script_chunks code.toList).isEmpty = false := by
    cases hsc : script_chunks code.toList with
    | nil => exact absurd hsc (script_chunks_ne_nil code.toList hne)
    | cons a t => rfl
  obtain ⟨q', hloop, hn, hf⟩ := put_code_loop_spec script_id now
    (script_chunks code.toList) 0 q (by rw [hcount]; exact hfree) hpos
  have hne1 : (List.replicate 5000 'a' : List Char) ≠ [] := by
    intro hc
    have hc' := congrArg List.length hc
    rw [List.length_replicate, List.length_nil] at hc'
    exact absurd hc' (by norm_num)
  have hne2 : (List.replicate 2952 'a' : List Char) ≠ [] := by
    intro hc
    have hc' := congrArg List.length hc
    rw [List.length_replicate, List.length_nil] at hc'
    exact absurd hc' (by norm_num)
  have hne3 : (List.replicate 904 'a' : List Char) ≠ [] := by
    intro hc
    have hc' := congrArg List.length hc
    rw [List.length_replicate, List.length_nil] at hc'
    exact absurd hc' (by norm_num)
  have hs1 : script_chunks (List.replicate 5000 'a') =
      List.replicate 2048 'a' :: script_chunks (List.replicate 2952 'a') := by
    rw [script_chunks_cons _ hne1, List.take_replicate, List.drop_replicate]
    norm_num [SCRIPT_CHUNK_SIZE]
  have hs2 : script_chunks (List.replicate 2952 'a') =
      List.replicate 2048 'a' :: script_chunks (List.replicate 904 'a') := by
    rw [script_chunks_cons _ hne2, List.take_replicate, List.drop_replicate]
    norm_num [SCRIPT_CHUNK_SIZE]
  have hs3 : script_chunks (List.replicate 904 'a') = [List.replicate 904 'a'] := by
    rw [script_chunks_cons _ hne3, List.take_replicate, List.drop_replicate]
    norm_num [SCRIPT_CHUNK_SIZE, List.replicate_zero, script_chunks_nil]
  have h5000 : script_chunks (List.replicate 5000 'a') =
      [List.replicate 2048 'a', List.replicate 2048 'a', List.replicate 904 'a'] := by
    rw [hs1, hs2, hs3]
  refine ⟨⟨q', ?_, ?_⟩, ?_, script_chunks_join code.toList,
    script_chunks_sizes code.toList, script_chunks_last code.toList, ?_,
    fun s lastId h => find_update_script_slot script_id code now lastId scripts s h,
    ?_, ?_, ?_⟩
  · unfold device_state_put_script_code
    rw [if_neg hr]
    simp only [hloop]
    rw [hnonempty]
    rw [if_neg (by simp)]
    rw [hcount]
  · rw [hn, hcount]
  · rw [put_code_trace_length script_id (script_chunks code.toList) 0 q.next_id, hcount]
  · intro k
    rw [put_code_trace_get script_id (script_chunks code.toList) 0 q.next_id k]
    simp only [Nat.zero_add]
  · intro scripts2 rt q2 msg_id s hfind
    have hstep : ws_handle_putcode_response scripts2 rt q2 script_id msg_id false now =
        (if s.last_upload_req_id = msg_id then
          match device_state_request_script_code rt q2 script_id now with
          | none => (rt, q2, [])
          | some (rt', q2', r, _) => (rt', q2', [r])
        else (rt, q2, [])) := by
      unfold ws_handle_putcode_response
      rw [hfind]
      rfl
    refine ⟨?_, ?_, rfl⟩
    · intro hlast hfree2 hpos2
      obtain ⟨q2', hreq⟩ := request_script_code_spec rt q2 script_id now hr hfree2 hpos2
      refine ⟨(if rt.retrieving_id ≠ script_id then
          ({ retrieving_id := script_id, current_offset := 0 } : scripts_retrieval)
        else rt), q2', ?_⟩
      rw [hstep, if_pos hlast, hreq]
    · intro hlast
      rw [hstep, if_neg hlast]
  · rw [h5000]
    simp only [List.map_cons, List.map_nil, List.length_replicate]
  · rw [h5000]
    have hd0 : (decide (0 > 0) : Bool) = false := rfl
    have hd1 : (decide (0 + 1 > 0) : Bool) = true := rfl
    have hd2 : (decide (0 + 1 + 1 > 0) : Bool) = true := rfl
    simp only [put_code_trace, hd0, hd1, hd2]
    norm_num

/-- Witness for C2: script id 1, code "ab", the initialized registry; the
hypotheses hold and the chunks flatten back to the code. -/
theorem C2_script_putcode_chunks_witness :
    (0 ≤ (1 : Int) ∧ (1 : Int) < MAX_SCRIPTS ∧
      0 < ("ab" : String).toList.length ∧
      (("ab" : String).toList.length + SCRIPT_CHUNK_SIZE - 1) / SCRIPT_CHUNK_SIZE ≤
        free_count (request_queue_init : request_queue Rpc).entries ∧
      1 ≤ (request_queue_init : request_queue Rpc).next_id) ∧
    (script_chunks ("ab" : String).toList).flatten = ("ab" : String).toList := by
  have h := C2_script_putcode_chunks [script_example] request_queue_init 1 "ab" 0
    (by decide) (by decide) (by decide) (by decide) (by decide)
  exact ⟨⟨by decide, by decide, by decide, by decide, by decide⟩, h.2.2.1⟩

end Shusefs
